import Mathlib

/-!
# Verification of the agent-playground tool-calling agent loop

This file is a shallow embedding, in Lean 4, of the provider-agnostic
tool-calling agent loop of the repository (the chat API route and its three
provider adapters), together with theorems settling the specification claims
about it.

Embedding conventions:

* JavaScript values that flow through the loop (tool arguments, the world
  executor's JSON response) are modelled by the small inductive `JsVal`.
* JavaScript string truthiness (`!!s`, `if (s)`) is modelled by `strTruthy`
  on `Option String`: `undefined`/`null` and `""` are falsy.
* JavaScript numbers holding token counts are modelled as `Int` (the source
  subtracts two counts without a floor, so the result can be negative).
* External calls are modelled as oracles passed to the loop: the provider is
  a function from the current provider-native history to the adapter's
  normalized response, and the world executor's fetch is a function from the
  (global call counter, tool call) to a `FetchOutcome`.
* The `for (let i = 0; i < maxIterations; i++)` loops are modelled by fuel
  recursion on the remaining iteration count, threading the loop's mutable
  state (`messages`, token totals, `toolCallCount`, `completed`) explicitly.
* The async generators are modelled as functions that return the list of
  emitted events.  In addition to the SSE events of the source, the event
  list records a `providerCall` marker (carrying the history that is sent)
  at each point where the source awaits the provider adapter; this
  instrumentation is what makes ordering claims about "the next provider
  invocation" statable.  The SSE stream of the source is exactly the
  projection that drops the markers.
* Wall-clock timestamps (`new Date().toISOString()`) on trace entries are
  not modelled; no claim depends on them.
-/

namespace AgentPlayground

/-- JSON-compatible values (`Record<string, any>` entries, `parsed_output`). -/
inductive JsVal where
  | str (s : String)
  | num (n : Int)
  | boolean (b : Bool)
  | null
  | arr (elems : List JsVal)
  | obj (fields : List (String × JsVal))

/-- Minimal JS string escaping used by `JSON.stringify`. -/
def jsEscape (s : String) : String :=
  s.foldl
    (fun acc c =>
      acc ++
        (if c = '"' then "\\\""
         else if c = '\\' then "\\\\"
         else if c = '\n' then "\\n"
         else String.singleton c))
    ""

mutual

/-- `JSON.stringify` on `JsVal` (compact form; the pretty-printed indentation
of `JSON.stringify(v, null, 2)` is not reproduced — no claim depends on the
exact whitespace of serialized tool output). -/
def jsStringify : JsVal → String
  | .str s => "\"" ++ jsEscape s ++ "\""
  | .num n => toString n
  | .boolean b => if b then "true" else "false"
  | .null => "null"
  | .arr xs => "[" ++ jsStringifyList xs ++ "]"
  | .obj fs => "\x7b" ++ jsStringifyFields fs ++ "\x7d"

def jsStringifyList : List JsVal → String
  | [] => ""
  | [x] => jsStringify x
  | x :: y :: xs => jsStringify x ++ "," ++ jsStringifyList (y :: xs)

def jsStringifyFields : List (String × JsVal) → String
  | [] => ""
  | [(k, v)] => "\"" ++ jsEscape k ++ "\":" ++ jsStringify v
  | (k, v) :: f :: fs =>
      "\"" ++ jsEscape k ++ "\":" ++ jsStringify v ++ "," ++
        jsStringifyFields (f :: fs)

end

/-- Tool arguments: a JS object `Record<string, any>`. -/
abbrev Args := List (String × JsVal)

/-- JS truthiness of an optional string: `undefined`/`null` and `""` are
falsy, every other string is truthy (`!!s`, `if (s)`). -/
def strTruthy : Option String → Bool
  | none => false
  | some s => s != ""

/-!
## Tool registry (`src/lib/services.ts`)

A `ServiceFunction` in the source is `{name, description, schema, toCode}`.
Resolution (`getFunctionByName`) and the active-subset computation
(`getEnabledFunctions`) depend only on the `name` field, which is what the
claims are about, so only the names are carried here; descriptions, zod
schemas and the Python code generators are not modelled.
-/

structure ServiceFunction where
  name : String
deriving DecidableEq, Repr

structure Service where
  name : String
  functions : List ServiceFunction
deriving DecidableEq, Repr

/-- The supervisor base tools (always included). -/
def baseTools : List ServiceFunction :=
  [⟨"supervisor_show_account_passwords"⟩,
   ⟨"supervisor_show_profile"⟩,
   ⟨"supervisor_complete_task"⟩]

/-- Internal raw-Python tool, not exposed to the model but resolvable. -/
def executePythonTool : ServiceFunction := ⟨"execute_python"⟩

def spotifyFunctions : List ServiceFunction :=
  [⟨"spotify_login"⟩, ⟨"spotify_show_liked_songs"⟩, ⟨"spotify_show_account"⟩,
   ⟨"spotify_search_songs"⟩, ⟨"spotify_search_artists"⟩,
   ⟨"spotify_search_albums"⟩, ⟨"spotify_search_playlists"⟩,
   ⟨"spotify_show_playlist"⟩, ⟨"spotify_play_music"⟩, ⟨"spotify_show_song"⟩,
   ⟨"spotify_get_album"⟩, ⟨"spotify_show_artist"⟩]

def gmailFunctions : List ServiceFunction :=
  [⟨"gmail_login"⟩, ⟨"gmail_show_inbox_threads"⟩, ⟨"gmail_show_outbox_threads"⟩,
   ⟨"gmail_show_thread"⟩, ⟨"gmail_show_email"⟩, ⟨"gmail_send_email"⟩,
   ⟨"gmail_reply_to_email"⟩, ⟨"gmail_show_account"⟩]

def venmoFunctions : List ServiceFunction :=
  [⟨"venmo_login"⟩, ⟨"venmo_show_account"⟩, ⟨"venmo_get_balance"⟩,
   ⟨"venmo_search_user"⟩, ⟨"venmo_pay"⟩, ⟨"venmo_request"⟩,
   ⟨"venmo_show_transactions"⟩, ⟨"venmo_show_pending"⟩,
   ⟨"venmo_accept_request"⟩, ⟨"venmo_decline_request"⟩]

def amazonFunctions : List ServiceFunction :=
  [⟨"amazon_login"⟩, ⟨"amazon_show_account"⟩, ⟨"amazon_search"⟩,
   ⟨"amazon_get_product"⟩, ⟨"amazon_show_cart"⟩, ⟨"amazon_add_to_cart"⟩,
   ⟨"amazon_remove_from_cart"⟩, ⟨"amazon_update_cart_quantity"⟩,
   ⟨"amazon_checkout"⟩, ⟨"amazon_show_orders"⟩, ⟨"amazon_get_order"⟩,
   ⟨"amazon_show_addresses"⟩, ⟨"amazon_show_payment_methods"⟩]

def todoistFunctions : List ServiceFunction :=
  [⟨"todoist_login"⟩, ⟨"todoist_show_account"⟩, ⟨"todoist_list_projects"⟩,
   ⟨"todoist_get_project"⟩, ⟨"todoist_create_project"⟩,
   ⟨"todoist_delete_project"⟩, ⟨"todoist_list_tasks"⟩, ⟨"todoist_get_task"⟩,
   ⟨"todoist_add_task"⟩, ⟨"todoist_update_task"⟩, ⟨"todoist_complete_task"⟩,
   ⟨"todoist_uncomplete_task"⟩, ⟨"todoist_delete_task"⟩]

def simpleNoteFunctions : List ServiceFunction :=
  [⟨"simplenote_login"⟩, ⟨"simplenote_search_notes"⟩, ⟨"simplenote_show_note"⟩,
   ⟨"simplenote_create_note"⟩, ⟨"simplenote_show_account"⟩]

def splitwiseFunctions : List ServiceFunction :=
  [⟨"splitwise_login"⟩, ⟨"splitwise_show_account"⟩, ⟨"splitwise_get_balances"⟩,
   ⟨"splitwise_list_groups"⟩, ⟨"splitwise_get_group"⟩,
   ⟨"splitwise_list_friends"⟩, ⟨"splitwise_add_expense"⟩,
   ⟨"splitwise_list_expenses"⟩, ⟨"splitwise_get_expense"⟩,
   ⟨"splitwise_delete_expense"⟩, ⟨"splitwise_settle_up"⟩]

def phoneFunctions : List ServiceFunction :=
  [⟨"phone_show_contacts"⟩, ⟨"phone_get_contact"⟩, ⟨"phone_search_contacts"⟩,
   ⟨"phone_add_contact"⟩, ⟨"phone_update_contact"⟩, ⟨"phone_delete_contact"⟩,
   ⟨"phone_show_call_log"⟩, ⟨"phone_show_sms"⟩, ⟨"phone_send_sms"⟩]

def fileSystemFunctions : List ServiceFunction :=
  [⟨"filesystem_list_files"⟩, ⟨"filesystem_read_file"⟩,
   ⟨"filesystem_write_file"⟩, ⟨"filesystem_append_file"⟩,
   ⟨"filesystem_delete_file"⟩, ⟨"filesystem_create_directory"⟩,
   ⟨"filesystem_delete_directory"⟩, ⟨"filesystem_move"⟩, ⟨"filesystem_copy"⟩]

/-- The global service catalog, in source order. -/
def services : List Service :=
  [⟨"spotify", spotifyFunctions⟩,
   ⟨"gmail", gmailFunctions⟩,
   ⟨"venmo", venmoFunctions⟩,
   ⟨"amazon", amazonFunctions⟩,
   ⟨"todoist", todoistFunctions⟩,
   ⟨"simple_note", simpleNoteFunctions⟩,
   ⟨"splitwise", splitwiseFunctions⟩,
   ⟨"phone", phoneFunctions⟩,
   ⟨"file_system", fileSystemFunctions⟩]

/-- `getEnabledFunctions`: base tools plus the functions of every service
whose name occurs in the caller's enabled-services list. -/
def getEnabledFunctions (enabledServices : List String) : List ServiceFunction :=
  services.foldl
    (fun fns s => if enabledServices.contains s.name then fns ++ s.functions else fns)
    baseTools

/-- Name lookup across the function lists of a list of services. -/
def findInServices (name : String) : List Service → Option ServiceFunction
  | [] => none
  | s :: rest =>
    match s.functions.find? (fun f => f.name == name) with
    | some f => some f
    | none => findInServices name rest

/-- `getFunctionByName`: resolves over the GLOBAL registry — base tools, the
internal `execute_python` tool, and every service's functions — regardless of
which services the caller enabled. -/
def getFunctionByName (name : String) : Option ServiceFunction :=
  match baseTools.find? (fun t => t.name == name) with
  | some t => some t
  | none =>
    if name == "execute_python" then some executePythonTool
    else findInServices name services

/-!
## World executor interface (`executeToolCall` in the chat route)

The `fetch` of the AppWorld execute endpoint is an external effect; its
possible results are modelled by `FetchOutcome`:
* `ok data` — the HTTP call succeeded (`response.ok`) and returned the JSON
  body `data` with shape `{output?, parsed_output?, error?, details?}`;
* `httpError status body` — `response.ok` was false;
* `exn message` — the fetch itself threw (network failure etc.).
-/

structure ToolCall where
  id : String
  name : String
  args : Args

structure AppWorldData where
  output : Option String
  parsed_output : Option JsVal
  error : Option String
  details : Option String

inductive FetchOutcome where
  | ok (data : AppWorldData)
  | httpError (status : Nat) (body : String)
  | exn (message : String)

/-- `executeToolCall`: resolves the tool by name in the global registry and
interprets the world executor's outcome, converting every failure into a
human-readable error string.  Total: it returns a `String` on every path. -/
def executeToolCall (tc : ToolCall) (outcome : FetchOutcome) : String :=
  match getFunctionByName tc.name with
  | none => "Error: Unknown function \"" ++ tc.name ++ "\""
  | some _fn =>
    match outcome with
    | .httpError status body => "Error: HTTP " ++ toString status ++ " - " ++ body
    | .exn message => "Error executing tool: " ++ message
    | .ok data =>
      if strTruthy data.error then
        "Error: " ++ data.error.getD "" ++
          (if strTruthy data.details then " - " ++ data.details.getD "" else "")
      else
        match data.parsed_output with
        | some (.str s) => s
        | some v => jsStringify v
        | none => if strTruthy data.output then data.output.getD "" else "No output"

/-- An executor outcome that `executeToolCall` converts into an error
ToolResult: an HTTP-level failure, a thrown fetch exception, or a truthy
world-level `error` field in an otherwise successful response. -/
def failedOutcome : FetchOutcome → Bool
  | .httpError _ _ => true
  | .exn _ => true
  | .ok data => strTruthy data.error

/-!
## Gemini provider adapter (`src/lib/providers/gemini.ts`)
-/

structure FunctionCall where
  name : String
  args : Args

/-- A `functionResponse` part wraps the textual result as `{result: ...}`;
the `result` string is carried directly. -/
structure FunctionResponse where
  name : String
  result : String

/-- One Gemini content `Part`.  The SDK's `Part` is a union; here a record of
its possible payloads (`text` possibly flagged as a `thought`, a
`functionCall`, a `functionResponse`). -/
structure Part where
  text : Option String := none
  thought : Bool := false
  functionCall : Option FunctionCall := none
  functionResponse : Option FunctionResponse := none

inductive GeminiRole where
  | user
  | model
deriving DecidableEq, Repr

structure GeminiMessage where
  role : GeminiRole
  parts : List Part

structure GeminiToolCall where
  name : String
  args : Args

/-- The adapter's normalized result (`finishReason` omitted: unused by the
agent loops). -/
structure GeminiResponse where
  text : Option String := none
  toolCalls : Option (List GeminiToolCall) := none
  inputTokens : Int
  outputTokens : Int
  thinkingTokens : Int
  modelParts : List Part := []

/-- `usageMetadata` of the vendor response; each count may be absent and
defaults to 0 (`|| 0`). -/
structure UsageMetadata where
  promptTokenCount : Option Nat := none
  candidatesTokenCount : Option Nat := none
  thoughtsTokenCount : Option Nat := none

def createFunctionResponsePart (name response : String) : Part :=
  { functionResponse := some ⟨name, response⟩ }

def createFunctionCallPart (name : String) (args : Args) : Part :=
  { functionCall := some ⟨name, args⟩ }

def createModelMessageFromParts (parts : List Part) : GeminiMessage :=
  ⟨.model, parts⟩

/-- Body of the `for (const part of parts)` loop of `callGemini`: push the
part into `modelParts` unconditionally; append its text to `text` unless the
part is flagged as a thought; collect its `functionCall` into `toolCalls`. -/
def callGeminiStep (resp : GeminiResponse) (part : Part) : GeminiResponse :=
  let resp := { resp with modelParts := resp.modelParts ++ [part] }
  let resp :=
    match part.text with
    | some t =>
      if t != "" && !part.thought then
        { resp with text := some (resp.text.getD "" ++ t) }
      else resp
    | none => resp
  match part.functionCall with
  | some fc =>
    { resp with toolCalls := some (resp.toolCalls.getD [] ++ [⟨fc.name, fc.args⟩]) }
  | none => resp

/-- Response-processing of `callGemini` (gemini.ts lines 99-144), given the
vendor's usage metadata and the parts of the first candidate.  `outputTokens`
is the candidate token count minus the thought token count — computed in
`Int` with no floor, exactly as the JS subtraction. -/
def callGemini (usage : UsageMetadata) (candidateParts : List Part) : GeminiResponse :=
  let promptTokens : Int := usage.promptTokenCount.getD 0
  let candidateTokens : Int := usage.candidatesTokenCount.getD 0
  let thoughtsTokens : Int := usage.thoughtsTokenCount.getD 0
  let init : GeminiResponse :=
    { inputTokens := promptTokens
      outputTokens := candidateTokens - thoughtsTokens
      thinkingTokens := thoughtsTokens }
  candidateParts.foldl callGeminiStep init

/-!
## Trace events and the SSE stream
-/

/-- SSE events of the streaming chat route (`SSEEvent` in route.ts), minus
the wall-clock timestamps on trace entries. -/
inductive SSEEvent where
  | tokens (inputTokens outputTokens thinkingTokens : Int) (toolCallCount : Nat)
  | textTrace (content : String)
  | toolCallTrace (name content : String) (args : Args)
  | toolResultTrace (name content : String)
  | done (completed needsUserInput : Bool)
  | errorEvent (message : String) (details : Option String)

/-- Instrumented loop event: the SSE events actually yielded, plus a marker
recording each provider invocation together with the history sent to it.
`μ` is the provider-native message type. -/
inductive LoopEvent (μ : Type) where
  | providerCall (history : μ)
  | sse (e : SSEEvent)

/-- The SSE stream emitted by the route is the projection of the
instrumented run that drops the provider-invocation markers. -/
def sseOf {μ : Type} (run : List (LoopEvent μ)) : List SSEEvent :=
  run.filterMap fun e =>
    match e with
    | .sse s => some s
    | .providerCall _ => none

def countProviderCalls {μ : Type} (run : List (LoopEvent μ)) : Nat :=
  (run.filter fun e =>
    match e with
    | .providerCall _ => true
    | .sse _ => false).length

/-- The histories recorded at the provider invocations of a run, in order. -/
def providerHistories {μ : Type} (run : List (LoopEvent μ)) : List μ :=
  run.filterMap fun e =>
    match e with
    | .providerCall h => some h
    | .sse _ => none

/-- The `(completed, needsUserInput)` payloads of the `done` events of a run. -/
def doneEvents {μ : Type} (run : List (LoopEvent μ)) : List (Bool × Bool) :=
  run.filterMap fun e =>
    match e with
    | .sse (.done c u) => some (c, u)
    | _ => none

/-- The tool-call/tool-result trace events of a run, as `(isCall, name)`
pairs in emission order: `(true, name)` for a `tool_call` trace event,
`(false, name)` for a `tool_result` one. -/
def toolEvents {μ : Type} (run : List (LoopEvent μ)) : List (Bool × String) :=
  run.filterMap fun e =>
    match e with
    | .sse (.toolCallTrace name _ _) => some (true, name)
    | .sse (.toolResultTrace name _) => some (false, name)
    | _ => none

/-- The contents of the tool-result trace events of a run, in order. -/
def toolResultContents {μ : Type} (run : List (LoopEvent μ)) : List String :=
  run.filterMap fun e =>
    match e with
    | .sse (.toolResultTrace _ content) => some content
    | _ => none

/-- The `(input, output, thinking)` totals of the token events of a run. -/
def tokensEvents {μ : Type} (run : List (LoopEvent μ)) : List (Int × Int × Int) :=
  run.filterMap fun e =>
    match e with
    | .sse (.tokens i o t _) => some (i, o, t)
    | _ => none

/-- An event satisfies the terminal-flag invariant when it is not a `done`
event carrying both `completed = true` and `needsUserInput = true`. -/
def doneOk {μ : Type} : LoopEvent μ → Bool
  | .sse (.done c u) => !(c && u)
  | _ => true

/-- Componentwise order on `(input, output, thinking)` token triples. -/
def tokLE (a b : Int × Int × Int) : Prop :=
  a.1 ≤ b.1 ∧ a.2.1 ≤ b.2.1 ∧ a.2.2 ≤ b.2.2

/-- Sum of the adapter-reported token values of a list of responses:
the triple of input/output/thinking totals after consuming all of them. -/
def tokenTotals : List GeminiResponse → Int × Int × Int
  | [] => (0, 0, 0)
  | r :: rs =>
    (r.inputTokens + (tokenTotals rs).1, r.outputTokens + (tokenTotals rs).2.1,
      r.thinkingTokens + (tokenTotals rs).2.2)

/-- Exact running-sum checker for token events: walk the run keeping the
sums of the adapter-reported per-call token values of the provider
invocations seen so far, seeded with `acc`.  Each provider-invocation
marker adds the values the adapter reports for the recorded history; each
token event must report exactly the current sums in all three components,
otherwise the scan rejects with `none`.  `(tokensScan model run (0,0,0)).isSome`
therefore states: at every token event — in particular after each
iteration — each running input/output/thinking total equals the sum of the
per-call adapter-reported values of the provider invocations made so far. -/
def tokensScan (model : List GeminiMessage → GeminiResponse) :
    List (LoopEvent (List GeminiMessage)) → Int × Int × Int → Option (Int × Int × Int)
  | [], acc => some acc
  | e :: rest, acc =>
    match e with
    | .providerCall h =>
      tokensScan model rest
        (acc.1 + (model h).inputTokens, acc.2.1 + (model h).outputTokens,
          acc.2.2 + (model h).thinkingTokens)
    | .sse (.tokens a b c _) =>
      if a == acc.1 && b == acc.2.1 && c == acc.2.2 then tokensScan model rest acc
      else none
    | _ => tokensScan model rest acc

/-- Ordering checker for the tool-event/provider-invocation discipline: scan
the run keeping the number of `tool_call` trace events whose `tool_result`
has not yet been emitted.  A `tool_result` with no pending `tool_call`, or a
provider invocation while a call is still unresolved, is a violation
(`none`).  `scanPending run 0 = some 0` therefore says exactly: pairing the
k-th `tool_call` event with the k-th `tool_result` event, every `tool_call`
is emitted strictly before its `tool_result`, and no provider invocation
occurs between a `tool_call` and its `tool_result` — i.e. both precede the
next provider invocation — and every call is resolved by the end of the
run. -/
def scanPending {μ : Type} : List (LoopEvent μ) → Nat → Option Nat
  | [], p => some p
  | e :: rest, p =>
    match e with
    | .providerCall _ => if p == 0 then scanPending rest 0 else none
    | .sse (.toolCallTrace _ _ _) => scanPending rest (p + 1)
    | .sse (.toolResultTrace _ _) => if p == 0 then none else scanPending rest (p - 1)
    | _ => scanPending rest p

/-- A run satisfies the ordering invariant when the scan accepts it with no
unresolved calls. -/
def orderedRun {μ : Type} (run : List (LoopEvent μ)) : Bool :=
  scanPending run 0 == some 0

/-- The trace content string of a tool call: `name(JSON.stringify(args))`. -/
def toolCallContent (name : String) (args : Args) : String :=
  name ++ "(" ++ jsStringify (.obj args) ++ ")"

/-- The tool-call id synthesized by the Gemini loops:
`call_<iteration>_<toolCallCount>`. -/
def geminiCallId (iterIdx cnt : Nat) : String :=
  "call_" ++ toString iterIdx ++ "_" ++ toString cnt

/-!
## Streaming Gemini agent loop (`runGeminiLoopStreaming`)
-/

/-- Mutable state of one Gemini loop invocation. -/
structure GeminiLoopState where
  messages : List GeminiMessage
  inputTokens : Int
  outputTokens : Int
  thinkingTokens : Int
  toolCallCount : Nat
  completed : Bool

/-- Body of `for (const tc of response.toolCalls)` in the streaming Gemini
loop: per call, emit the `tool_call` trace event and an updated token event,
set `completed` on the designated completion tool, execute the call, emit the
`tool_result` trace event, and accumulate the `functionResponse` part. -/
def runGeminiBatch (fetch : Nat → ToolCall → FetchOutcome) (iterIdx : Nat) :
    GeminiLoopState → List GeminiToolCall →
    List (LoopEvent (List GeminiMessage)) × GeminiLoopState × List Part
  | st, [] => ([], st, [])
  | st, tc :: rest =>
    let cnt := st.toolCallCount + 1
    let call : ToolCall := ⟨geminiCallId iterIdx cnt, tc.name, tc.args⟩
    let result := executeToolCall call (fetch cnt call)
    let st1 : GeminiLoopState :=
      { st with
        toolCallCount := cnt
        completed := st.completed || tc.name == "supervisor_complete_task" }
    let restRun := runGeminiBatch fetch iterIdx st1 rest
    (.sse (.toolCallTrace tc.name (toolCallContent tc.name tc.args) tc.args) ::
       .sse (.tokens st.inputTokens st.outputTokens st.thinkingTokens cnt) ::
       .sse (.toolResultTrace tc.name result) ::
       restRun.1,
     restRun.2.1,
     createFunctionResponsePart tc.name result :: restRun.2.2)

/-- Token accumulation at the head of each Gemini iteration
(`inputTokens += …` etc.). -/
def geminiAddTokens (resp : GeminiResponse) (st : GeminiLoopState) : GeminiLoopState :=
  { st with
    inputTokens := st.inputTokens + resp.inputTokens
    outputTokens := st.outputTokens + resp.outputTokens
    thinkingTokens := st.thinkingTokens + resp.thinkingTokens }

/-- The state entering the next Gemini iteration after a tool-call batch:
the batch's state with the model's complete part list (when non-empty) and
the synthesized `functionResponse` user message appended to the history. -/
def geminiNextState (fetch : Nat → ToolCall → FetchOutcome) (i : Nat)
    (resp : GeminiResponse) (st1 : GeminiLoopState) : GeminiLoopState :=
  let batch := runGeminiBatch fetch i st1 (resp.toolCalls.getD [])
  { batch.2.1 with
    messages :=
      (if resp.modelParts.isEmpty then batch.2.1.messages
       else batch.2.1.messages ++ [createModelMessageFromParts resp.modelParts]) ++
        [⟨.user, batch.2.2⟩] }

/-- The per-call `executeToolCall` result strings of a Gemini batch, given
the running tool-call counter at entry: what the batch feeds into its
`tool_result` trace events and `functionResponse` parts. -/
def geminiBatchResults (fetch : Nat → ToolCall → FetchOutcome) (iterIdx : Nat) :
    Nat → List GeminiToolCall → List String
  | _, [] => []
  | cnt, tc :: rest =>
    executeToolCall ⟨geminiCallId iterIdx (cnt + 1), tc.name, tc.args⟩
        (fetch (cnt + 1) ⟨geminiCallId iterIdx (cnt + 1), tc.name, tc.args⟩) ::
      geminiBatchResults fetch iterIdx (cnt + 1) rest

/-- One iteration of the streaming Gemini loop, with `fuel` remaining
iterations and `i` the current iteration index.  `fuel = 0` is the exit of
the `for` loop, which yields the final `Done` with
`needsUserInput := false`; the `break` on `completed` reaches the same final
yield and is inlined here. -/
def runGeminiAux (model : List GeminiMessage → GeminiResponse)
    (fetch : Nat → ToolCall → FetchOutcome) :
    Nat → Nat → GeminiLoopState → List (LoopEvent (List GeminiMessage))
  | 0, _, st => [.sse (.done st.completed false)]
  | fuel + 1, i, st =>
    let resp := model st.messages
    let st1 := geminiAddTokens resp st
    let headEvents : List (LoopEvent (List GeminiMessage)) :=
      .providerCall st.messages ::
        .sse (.tokens st1.inputTokens st1.outputTokens st1.thinkingTokens st1.toolCallCount) ::
        (if strTruthy resp.text then [.sse (.textTrace (resp.text.getD ""))] else [])
    if (resp.toolCalls.getD []).isEmpty then
      headEvents ++ [.sse (.done st1.completed (strTruthy resp.text))]
    else
      let batch := runGeminiBatch fetch i st1 (resp.toolCalls.getD [])
      let st3 := geminiNextState fetch i resp st1
      if st3.completed then
        headEvents ++ batch.1 ++ [.sse (.done st3.completed false)]
      else
        headEvents ++ batch.1 ++ runGeminiAux model fetch fuel (i + 1) st3

/-- The default `maxIterations` of every agent loop in the route. -/
def defaultMaxIterations : Nat := 50

def initialGeminiState (initialMessages : List GeminiMessage) : GeminiLoopState :=
  ⟨initialMessages, 0, 0, 0, 0, false⟩

/-- `runGeminiLoopStreaming`, as the instrumented list of events it yields,
driven by a provider oracle `model` (the result of `callGemini` on the
current history) and a world-executor oracle `fetch` (indexed by the global
tool-call counter). -/
def runGeminiLoopStreaming (model : List GeminiMessage → GeminiResponse)
    (fetch : Nat → ToolCall → FetchOutcome)
    (initialMessages : List GeminiMessage) (maxIterations : Nat) :
    List (LoopEvent (List GeminiMessage)) :=
  runGeminiAux model fetch maxIterations 0 (initialGeminiState initialMessages)

/-!
## Non-streaming agent loops (`runGeminiLoop` etc.) and their result record
-/

inductive TraceType where
  | tool_call
  | tool_result
  | text
  | error
deriving DecidableEq, Repr

/-- A trace entry of the non-streaming loops (timestamp omitted). -/
structure TraceEntry where
  type : TraceType
  content : String
  name : Option String := none
  args : Option Args := none

structure AgentLoopResult where
  trace : List TraceEntry
  finalText : Option String
  inputTokens : Int
  outputTokens : Int
  thinkingTokens : Int
  toolCallCount : Nat
  completed : Bool
  needsUserInput : Bool

/-- State of one non-streaming Gemini loop invocation. -/
structure GeminiNSState where
  messages : List GeminiMessage
  trace : List TraceEntry
  inputTokens : Int
  outputTokens : Int
  thinkingTokens : Int
  toolCallCount : Nat
  completed : Bool
  finalText : Option String

/-- Tool-call batch of the non-streaming Gemini loop: per call, append the
`tool_call` and `tool_result` trace entries, set `completed` on the
completion tool, and accumulate the `functionResponse` part. -/
def runGeminiBatchNS (fetch : Nat → ToolCall → FetchOutcome) (iterIdx : Nat) :
    GeminiNSState → List GeminiToolCall → GeminiNSState × List Part
  | st, [] => (st, [])
  | st, tc :: rest =>
    let cnt := st.toolCallCount + 1
    let call : ToolCall := ⟨geminiCallId iterIdx cnt, tc.name, tc.args⟩
    let result := executeToolCall call (fetch cnt call)
    let st1 : GeminiNSState :=
      { st with
        toolCallCount := cnt
        completed := st.completed || tc.name == "supervisor_complete_task"
        trace := st.trace ++
          [⟨.tool_call, toolCallContent tc.name tc.args, some tc.name, some tc.args⟩,
           ⟨.tool_result, result, some tc.name, none⟩] }
    let restRun := runGeminiBatchNS fetch iterIdx st1 rest
    (restRun.1, createFunctionResponsePart tc.name result :: restRun.2)

def geminiAddTokensNS (resp : GeminiResponse) (st : GeminiNSState) : GeminiNSState :=
  { st with
    inputTokens := st.inputTokens + resp.inputTokens
    outputTokens := st.outputTokens + resp.outputTokens
    thinkingTokens := st.thinkingTokens + resp.thinkingTokens }

/-- The `if (response.text)` step of the non-streaming Gemini loop: append a
`text` trace entry and remember the latest final-text candidate. -/
def geminiTextStepNS (resp : GeminiResponse) (st1 : GeminiNSState) : GeminiNSState :=
  if strTruthy resp.text then
    { st1 with
      trace := st1.trace ++ [⟨.text, resp.text.getD "", none, none⟩]
      finalText := resp.text }
  else st1

def geminiNextStateNS (fetch : Nat → ToolCall → FetchOutcome) (i : Nat)
    (resp : GeminiResponse) (st2 : GeminiNSState) : GeminiNSState :=
  let batch := runGeminiBatchNS fetch i st2 (resp.toolCalls.getD [])
  { batch.1 with
    messages :=
      (if resp.modelParts.isEmpty then batch.1.messages
       else batch.1.messages ++ [createModelMessageFromParts resp.modelParts]) ++
        [⟨.user, batch.2⟩] }

/-- One iteration of the non-streaming Gemini loop (`runGeminiLoop`). -/
def runGeminiLoopAux (model : List GeminiMessage → GeminiResponse)
    (fetch : Nat → ToolCall → FetchOutcome) :
    Nat → Nat → GeminiNSState → AgentLoopResult
  | 0, _, st =>
    ⟨st.trace, st.finalText, st.inputTokens, st.outputTokens, st.thinkingTokens,
      st.toolCallCount, st.completed, false⟩
  | fuel + 1, i, st =>
    let resp := model st.messages
    let st2 := geminiTextStepNS resp (geminiAddTokensNS resp st)
    if (resp.toolCalls.getD []).isEmpty then
      ⟨st2.trace, st2.finalText, st2.inputTokens, st2.outputTokens,
        st2.thinkingTokens, st2.toolCallCount, st2.completed, strTruthy resp.text⟩
    else
      let st4 := geminiNextStateNS fetch i resp st2
      if st4.completed then
        ⟨st4.trace, st4.finalText, st4.inputTokens, st4.outputTokens,
          st4.thinkingTokens, st4.toolCallCount, st4.completed, false⟩
      else
        runGeminiLoopAux model fetch fuel (i + 1) st4

def initialGeminiNSState (initialMessages : List GeminiMessage) : GeminiNSState :=
  ⟨initialMessages, [], 0, 0, 0, 0, false, none⟩

/-- `runGeminiLoop` (non-streaming), as the `AgentLoopResult` it returns. -/
def runGeminiLoop (model : List GeminiMessage → GeminiResponse)
    (fetch : Nat → ToolCall → FetchOutcome)
    (initialMessages : List GeminiMessage) (maxIterations : Nat) : AgentLoopResult :=
  runGeminiLoopAux model fetch maxIterations 0 (initialGeminiNSState initialMessages)

/-!
## Anthropic provider adapter and loops (`src/lib/providers/anthropic.ts`)
-/

structure AnthropicToolCall where
  id : String
  name : String
  args : Args

inductive AnthropicBlock where
  | text (text : String)
  | toolUse (id name : String) (input : Args)
  | toolResult (tool_use_id content : String)

inductive AnthropicRole where
  | user
  | assistant
deriving DecidableEq, Repr

structure AnthropicMessage where
  role : AnthropicRole
  content : List AnthropicBlock

/-- The Anthropic adapter's normalized result; no thinking support, so the
loops use a literal 0 for thinking tokens. -/
structure AnthropicResponse where
  text : Option String := none
  toolCalls : Option (List AnthropicToolCall) := none
  inputTokens : Int
  outputTokens : Int

/-- `createAssistantContent`: optional leading text block, then one
`tool_use` block per call. -/
def createAssistantContent (text : Option String)
    (toolCalls : Option (List AnthropicToolCall)) : List AnthropicBlock :=
  (if strTruthy text then [.text (text.getD "")] else []) ++
    (toolCalls.getD []).map fun tc => .toolUse tc.id tc.name tc.args

def createToolResultContent (toolCallId result : String) : AnthropicBlock :=
  .toolResult toolCallId result

structure AnthropicLoopState where
  messages : List AnthropicMessage
  inputTokens : Int
  outputTokens : Int
  toolCallCount : Nat
  completed : Bool

/-- Tool-call batch of the streaming Anthropic loop; results are correlated
by the provider-supplied call ids. -/
def runAnthropicBatch (fetch : Nat → ToolCall → FetchOutcome) :
    AnthropicLoopState → List AnthropicToolCall →
    List (LoopEvent (List AnthropicMessage)) × AnthropicLoopState × List AnthropicBlock
  | st, [] => ([], st, [])
  | st, tc :: rest =>
    let cnt := st.toolCallCount + 1
    let call : ToolCall := ⟨tc.id, tc.name, tc.args⟩
    let result := executeToolCall call (fetch cnt call)
    let st1 : AnthropicLoopState :=
      { st with
        toolCallCount := cnt
        completed := st.completed || tc.name == "supervisor_complete_task" }
    let restRun := runAnthropicBatch fetch st1 rest
    (.sse (.toolCallTrace tc.name (toolCallContent tc.name tc.args) tc.args) ::
       .sse (.tokens st.inputTokens st.outputTokens 0 cnt) ::
       .sse (.toolResultTrace tc.name result) ::
       restRun.1,
     restRun.2.1,
     createToolResultContent tc.id result :: restRun.2.2)

def anthropicAddTokens (resp : AnthropicResponse) (st : AnthropicLoopState) :
    AnthropicLoopState :=
  { st with
    inputTokens := st.inputTokens + resp.inputTokens
    outputTokens := st.outputTokens + resp.outputTokens }

/-- The state holding the assistant message (text + `tool_use` blocks),
pushed before the batch executes. -/
def anthropicAssistantState (resp : AnthropicResponse) (st1 : AnthropicLoopState) :
    AnthropicLoopState :=
  { st1 with
    messages := st1.messages ++
      [⟨.assistant, createAssistantContent resp.text resp.toolCalls⟩] }

/-- The state entering the next Anthropic iteration: the batch's state with
the collected `tool_result` blocks appended as one user message. -/
def anthropicNextState (fetch : Nat → ToolCall → FetchOutcome)
    (resp : AnthropicResponse) (st1 : AnthropicLoopState) : AnthropicLoopState :=
  let batch := runAnthropicBatch fetch (anthropicAssistantState resp st1) (resp.toolCalls.getD [])
  { batch.2.1 with messages := batch.2.1.messages ++ [⟨.user, batch.2.2⟩] }

/-- One iteration of the streaming Anthropic loop
(`runAnthropicLoopStreaming`): the assistant message (text + `tool_use`
blocks) is appended before the batch, the collected `tool_result` blocks as
one user message after it. -/
def runAnthropicAux (model : List AnthropicMessage → AnthropicResponse)
    (fetch : Nat → ToolCall → FetchOutcome) :
    Nat → AnthropicLoopState → List (LoopEvent (List AnthropicMessage))
  | 0, st => [.sse (.done st.completed false)]
  | fuel + 1, st =>
    let resp := model st.messages
    let st1 := anthropicAddTokens resp st
    let headEvents : List (LoopEvent (List AnthropicMessage)) :=
      .providerCall st.messages ::
        .sse (.tokens st1.inputTokens st1.outputTokens 0 st1.toolCallCount) ::
        (if strTruthy resp.text then [.sse (.textTrace (resp.text.getD ""))] else [])
    if (resp.toolCalls.getD []).isEmpty then
      headEvents ++ [.sse (.done st1.completed (strTruthy resp.text))]
    else
      let batch := runAnthropicBatch fetch (anthropicAssistantState resp st1)
        (resp.toolCalls.getD [])
      let st3 := anthropicNextState fetch resp st1
      if st3.completed then
        headEvents ++ batch.1 ++ [.sse (.done st3.completed false)]
      else
        headEvents ++ batch.1 ++ runAnthropicAux model fetch fuel st3

def initialAnthropicState (initialMessages : List AnthropicMessage) : AnthropicLoopState :=
  ⟨initialMessages, 0, 0, 0, false⟩

def runAnthropicLoopStreaming (model : List AnthropicMessage → AnthropicResponse)
    (fetch : Nat → ToolCall → FetchOutcome)
    (initialMessages : List AnthropicMessage) (maxIterations : Nat) :
    List (LoopEvent (List AnthropicMessage)) :=
  runAnthropicAux model fetch maxIterations (initialAnthropicState initialMessages)

structure AnthropicNSState where
  messages : List AnthropicMessage
  trace : List TraceEntry
  inputTokens : Int
  outputTokens : Int
  toolCallCount : Nat
  completed : Bool
  finalText : Option String

def runAnthropicBatchNS (fetch : Nat → ToolCall → FetchOutcome) :
    AnthropicNSState → List AnthropicToolCall → AnthropicNSState × List AnthropicBlock
  | st, [] => (st, [])
  | st, tc :: rest =>
    let cnt := st.toolCallCount + 1
    let call : ToolCall := ⟨tc.id, tc.name, tc.args⟩
    let result := executeToolCall call (fetch cnt call)
    let st1 : AnthropicNSState :=
      { st with
        toolCallCount := cnt
        completed := st.completed || tc.name == "supervisor_complete_task"
        trace := st.trace ++
          [⟨.tool_call, toolCallContent tc.name tc.args, some tc.name, some tc.args⟩,
           ⟨.tool_result, result, some tc.name, none⟩] }
    let restRun := runAnthropicBatchNS fetch st1 rest
    (restRun.1, createToolResultContent tc.id result :: restRun.2)

def anthropicAddTokensNS (resp : AnthropicResponse) (st : AnthropicNSState) :
    AnthropicNSState :=
  { st with
    inputTokens := st.inputTokens + resp.inputTokens
    outputTokens := st.outputTokens + resp.outputTokens }

def anthropicTextStepNS (resp : AnthropicResponse) (st1 : AnthropicNSState) :
    AnthropicNSState :=
  if strTruthy resp.text then
    { st1 with
      trace := st1.trace ++ [⟨.text, resp.text.getD "", none, none⟩]
      finalText := resp.text }
  else st1

def anthropicNextStateNS (fetch : Nat → ToolCall → FetchOutcome)
    (resp : AnthropicResponse) (st2 : AnthropicNSState) : AnthropicNSState :=
  let stm : AnthropicNSState :=
    { st2 with
      messages := st2.messages ++
        [⟨.assistant, createAssistantContent resp.text resp.toolCalls⟩] }
  let batch := runAnthropicBatchNS fetch stm (resp.toolCalls.getD [])
  { batch.1 with messages := batch.1.messages ++ [⟨.user, batch.2⟩] }

/-- One iteration of the non-streaming Anthropic loop (`runAnthropicLoop`). -/
def runAnthropicLoopAux (model : List AnthropicMessage → AnthropicResponse)
    (fetch : Nat → ToolCall → FetchOutcome) :
    Nat → AnthropicNSState → AgentLoopResult
  | 0, st =>
    ⟨st.trace, st.finalText, st.inputTokens, st.outputTokens, 0,
      st.toolCallCount, st.completed, false⟩
  | fuel + 1, st =>
    let resp := model st.messages
    let st2 := anthropicTextStepNS resp (anthropicAddTokensNS resp st)
    if (resp.toolCalls.getD []).isEmpty then
      ⟨st2.trace, st2.finalText, st2.inputTokens, st2.outputTokens, 0,
        st2.toolCallCount, st2.completed, strTruthy resp.text⟩
    else
      let st4 := anthropicNextStateNS fetch resp st2
      if st4.completed then
        ⟨st4.trace, st4.finalText, st4.inputTokens, st4.outputTokens, 0,
          st4.toolCallCount, st4.completed, false⟩
      else
        runAnthropicLoopAux model fetch fuel st4

def initialAnthropicNSState (initialMessages : List AnthropicMessage) : AnthropicNSState :=
  ⟨initialMessages, [], 0, 0, 0, false, none⟩

def runAnthropicLoop (model : List AnthropicMessage → AnthropicResponse)
    (fetch : Nat → ToolCall → FetchOutcome)
    (initialMessages : List AnthropicMessage) (maxIterations : Nat) : AgentLoopResult :=
  runAnthropicLoopAux model fetch maxIterations (initialAnthropicNSState initialMessages)

/-!
## OpenAI provider adapter and loops (`src/lib/providers/openai.ts`)
-/

structure OpenAIToolCall where
  id : String
  name : String
  args : Args

inductive OpenAIMessage where
  | system (content : String)
  | user (content : String)
  | assistant (content : Option String) (tool_calls : List OpenAIToolCall)
  | tool (tool_call_id content : String)

structure OpenAIResponse where
  text : Option String := none
  toolCalls : Option (List OpenAIToolCall) := none
  inputTokens : Int
  outputTokens : Int

/-- `createAssistantMessage`: `content := text || null`; `tool_calls`
attached only when the list is non-empty (the empty list stands for the
absent field). -/
def createAssistantMessage (text : Option String)
    (toolCalls : Option (List OpenAIToolCall)) : OpenAIMessage :=
  .assistant (if strTruthy text then text else none) (toolCalls.getD [])

def createToolResultMessage (toolCallId result : String) : OpenAIMessage :=
  .tool toolCallId result

structure OpenAILoopState where
  messages : List OpenAIMessage
  inputTokens : Int
  outputTokens : Int
  toolCallCount : Nat
  completed : Bool

/-- Tool-call batch of the streaming OpenAI loop; each `tool` result message
is pushed onto the history immediately after its call executes. -/
def runOpenAIBatch (fetch : Nat → ToolCall → FetchOutcome) :
    OpenAILoopState → List OpenAIToolCall →
    List (LoopEvent (List OpenAIMessage)) × OpenAILoopState
  | st, [] => ([], st)
  | st, tc :: rest =>
    let cnt := st.toolCallCount + 1
    let call : ToolCall := ⟨tc.id, tc.name, tc.args⟩
    let result := executeToolCall call (fetch cnt call)
    let st1 : OpenAILoopState :=
      { st with
        toolCallCount := cnt
        completed := st.completed || tc.name == "supervisor_complete_task"
        messages := st.messages ++ [createToolResultMessage tc.id result] }
    let restRun := runOpenAIBatch fetch st1 rest
    (.sse (.toolCallTrace tc.name (toolCallContent tc.name tc.args) tc.args) ::
       .sse (.tokens st.inputTokens st.outputTokens 0 cnt) ::
       .sse (.toolResultTrace tc.name result) ::
       restRun.1,
     restRun.2)

def openAIAddTokens (resp : OpenAIResponse) (st : OpenAILoopState) : OpenAILoopState :=
  { st with
    inputTokens := st.inputTokens + resp.inputTokens
    outputTokens := st.outputTokens + resp.outputTokens }

/-- The state holding the assistant message, pushed before the batch. -/
def openAIAssistantState (resp : OpenAIResponse) (st1 : OpenAILoopState) :
    OpenAILoopState :=
  { st1 with
    messages := st1.messages ++ [createAssistantMessage resp.text resp.toolCalls] }

/-- The state entering the next OpenAI iteration: the batch already pushed
each `tool` result message onto the history. -/
def openAINextState (fetch : Nat → ToolCall → FetchOutcome)
    (resp : OpenAIResponse) (st1 : OpenAILoopState) : OpenAILoopState :=
  (runOpenAIBatch fetch (openAIAssistantState resp st1) (resp.toolCalls.getD [])).2

/-- One iteration of the streaming OpenAI loop (`runOpenAILoopStreaming`). -/
def runOpenAIAux (model : List OpenAIMessage → OpenAIResponse)
    (fetch : Nat → ToolCall → FetchOutcome) :
    Nat → OpenAILoopState → List (LoopEvent (List OpenAIMessage))
  | 0, st => [.sse (.done st.completed false)]
  | fuel + 1, st =>
    let resp := model st.messages
    let st1 := openAIAddTokens resp st
    let headEvents : List (LoopEvent (List OpenAIMessage)) :=
      .providerCall st.messages ::
        .sse (.tokens st1.inputTokens st1.outputTokens 0 st1.toolCallCount) ::
        (if strTruthy resp.text then [.sse (.textTrace (resp.text.getD ""))] else [])
    if (resp.toolCalls.getD []).isEmpty then
      headEvents ++ [.sse (.done st1.completed (strTruthy resp.text))]
    else
      let batch := runOpenAIBatch fetch (openAIAssistantState resp st1)
        (resp.toolCalls.getD [])
      let st2 := openAINextState fetch resp st1
      if st2.completed then
        headEvents ++ batch.1 ++ [.sse (.done st2.completed false)]
      else
        headEvents ++ batch.1 ++ runOpenAIAux model fetch fuel st2

def initialOpenAIState (initialMessages : List OpenAIMessage) : OpenAILoopState :=
  ⟨initialMessages, 0, 0, 0, false⟩

def runOpenAILoopStreaming (model : List OpenAIMessage → OpenAIResponse)
    (fetch : Nat → ToolCall → FetchOutcome)
    (initialMessages : List OpenAIMessage) (maxIterations : Nat) :
    List (LoopEvent (List OpenAIMessage)) :=
  runOpenAIAux model fetch maxIterations (initialOpenAIState initialMessages)

structure OpenAINSState where
  messages : List OpenAIMessage
  trace : List TraceEntry
  inputTokens : Int
  outputTokens : Int
  toolCallCount : Nat
  completed : Bool
  finalText : Option String

def runOpenAIBatchNS (fetch : Nat → ToolCall → FetchOutcome) :
    OpenAINSState → List OpenAIToolCall → OpenAINSState
  | st, [] => st
  | st, tc :: rest =>
    let cnt := st.toolCallCount + 1
    let call : ToolCall := ⟨tc.id, tc.name, tc.args⟩
    let result := executeToolCall call (fetch cnt call)
    let st1 : OpenAINSState :=
      { st with
        toolCallCount := cnt
        completed := st.completed || tc.name == "supervisor_complete_task"
        trace := st.trace ++
          [⟨.tool_call, toolCallContent tc.name tc.args, some tc.name, some tc.args⟩,
           ⟨.tool_result, result, some tc.name, none⟩]
        messages := st.messages ++ [createToolResultMessage tc.id result] }
    runOpenAIBatchNS fetch st1 rest

def openAIAddTokensNS (resp : OpenAIResponse) (st : OpenAINSState) : OpenAINSState :=
  { st with
    inputTokens := st.inputTokens + resp.inputTokens
    outputTokens := st.outputTokens + resp.outputTokens }

def openAITextStepNS (resp : OpenAIResponse) (st1 : OpenAINSState) : OpenAINSState :=
  if strTruthy resp.text then
    { st1 with
      trace := st1.trace ++ [⟨.text, resp.text.getD "", none, none⟩]
      finalText := resp.text }
  else st1

def openAINextStateNS (fetch : Nat → ToolCall → FetchOutcome)
    (resp : OpenAIResponse) (st2 : OpenAINSState) : OpenAINSState :=
  runOpenAIBatchNS fetch
    { st2 with
      messages := st2.messages ++ [createAssistantMessage resp.text resp.toolCalls] }
    (resp.toolCalls.getD [])

/-- One iteration of the non-streaming OpenAI loop (`runOpenAILoop`). -/
def runOpenAILoopAux (model : List OpenAIMessage → OpenAIResponse)
    (fetch : Nat → ToolCall → FetchOutcome) :
    Nat → OpenAINSState → AgentLoopResult
  | 0, st =>
    ⟨st.trace, st.finalText, st.inputTokens, st.outputTokens, 0,
      st.toolCallCount, st.completed, false⟩
  | fuel + 1, st =>
    let resp := model st.messages
    let st2 := openAITextStepNS resp (openAIAddTokensNS resp st)
    if (resp.toolCalls.getD []).isEmpty then
      ⟨st2.trace, st2.finalText, st2.inputTokens, st2.outputTokens, 0,
        st2.toolCallCount, st2.completed, strTruthy resp.text⟩
    else
      let st3 := openAINextStateNS fetch resp st2
      if st3.completed then
        ⟨st3.trace, st3.finalText, st3.inputTokens, st3.outputTokens, 0,
          st3.toolCallCount, st3.completed, false⟩
      else
        runOpenAILoopAux model fetch fuel st3

def initialOpenAINSState (initialMessages : List OpenAIMessage) : OpenAINSState :=
  ⟨initialMessages, [], 0, 0, 0, false, none⟩

def runOpenAILoop (model : List OpenAIMessage → OpenAIResponse)
    (fetch : Nat → ToolCall → FetchOutcome)
    (initialMessages : List OpenAIMessage) (maxIterations : Nat) : AgentLoopResult :=
  runOpenAILoopAux model fetch maxIterations (initialOpenAINSState initialMessages)

/-!
## Provider validation and pre-loop request checks (`POST` in route.ts)
-/

inductive ModelProvider where
  | gemini
  | anthropic
  | openai
deriving DecidableEq, Repr

/-- `validateProvider`: accepts exactly the three known header values and
silently falls back to `gemini` for everything else (absent or unrecognized
headers alike). -/
def validateProvider (providerHeader : Option String) : ModelProvider :=
  if providerHeader == some "gemini" then .gemini
  else if providerHeader == some "anthropic" then .anthropic
  else if providerHeader == some "openai" then .openai
  else .gemini

inductive PreLoopOutcome where
  | reject (error : String)
  | run (provider : ModelProvider)
deriving DecidableEq, Repr

/-- The request checks the `POST` handler performs before any loop starts:
reject on a missing/empty `x-api-key` header, reject on a missing/empty
`taskId` or `cookie` in the body, otherwise run the loop selected by
`validateProvider`.  (Header parsing of enabled services and the
message-format conversion do not affect acceptance and are omitted.) -/
def postPreLoop (providerHeader apiKey taskId cookie : Option String) : PreLoopOutcome :=
  if !strTruthy apiKey then
    .reject "Missing x-api-key header"
  else if !strTruthy taskId || !strTruthy cookie then
    .reject "Missing taskId or cookie. Initialize the world state first."
  else
    .run (validateProvider providerHeader)

/-!
## Concrete oracles used by witnesses and counterexamples
-/

/-- A model turn with a single `spotify_login` tool call and no text. -/
def demoToolCallResponse : GeminiResponse :=
  { toolCalls := some [⟨"spotify_login", []⟩]
    inputTokens := 1
    outputTokens := 2
    thinkingTokens := 0
    modelParts := [createFunctionCallPart "spotify_login" []] }

/-- A provider oracle that always returns `demoToolCallResponse`:
a model that never stops producing tool calls. -/
def demoModelLoop : List GeminiMessage → GeminiResponse :=
  fun _ => demoToolCallResponse

/-- A world-executor oracle that always succeeds with output `"ok"`. -/
def demoFetch : Nat → ToolCall → FetchOutcome :=
  fun _ _ => .ok ⟨some "ok", none, none, none⟩

/-- Scenario A: the model returns text `"You have $42"` and no tool calls. -/
def demoModelTextOnly : List GeminiMessage → GeminiResponse :=
  fun _ =>
    { text := some "You have $42"
      inputTokens := 3
      outputTokens := 4
      thinkingTokens := 0
      modelParts := [{ text := some "You have $42" }] }

/-- Scenario B: a batch with a balance check followed by the completion
tool, plus accompanying text. -/
def demoModelComplete : List GeminiMessage → GeminiResponse :=
  fun _ =>
    { text := some "wrapping up"
      toolCalls := some [⟨"venmo_get_balance", []⟩, ⟨"supervisor_complete_task", []⟩]
      inputTokens := 1
      outputTokens := 1
      thinkingTokens := 0
      modelParts :=
        [createFunctionCallPart "venmo_get_balance" [],
         createFunctionCallPart "supervisor_complete_task" []] }

/-- A model turn calling a name that resolves nowhere in the registry. -/
def demoModelUnknownTool : List GeminiMessage → GeminiResponse :=
  fun _ =>
    { toolCalls := some [⟨"not_a_real_tool", []⟩]
      inputTokens := 0
      outputTokens := 0
      thinkingTokens := 0
      modelParts := [createFunctionCallPart "not_a_real_tool" []] }

/-- A reasoning part: thought-flagged text, as produced by a Gemini 3
candidate. -/
def demoThoughtPart : Part :=
  { text := some "chain of thought", thought := true }

/-- A model oracle built through the Gemini adapter from a candidate holding
a thought part followed by a function-call part. -/
def demoModelThinking : List GeminiMessage → GeminiResponse :=
  fun _ =>
    callGemini ⟨some 1, some 2, some 1⟩
      [demoThoughtPart, createFunctionCallPart "venmo_get_balance" []]

/-- A Gemini model oracle whose second turn reports more thought tokens than
candidate tokens, driving `outputTokens` negative through the adapter's
unguarded subtraction. -/
def demoNegTokenModel : List GeminiMessage → GeminiResponse :=
  fun h =>
    if h.length == 0 then
      callGemini ⟨some 3, some 10, some 0⟩ [createFunctionCallPart "venmo_get_balance" []]
    else
      callGemini ⟨some 3, some 5, some 10⟩ [{ text := some "hi" }]

/-!
## Projection lemmas on instrumented runs
-/

@[simp]
theorem countProviderCalls_nil {μ : Type} : countProviderCalls ([] : List (LoopEvent μ)) = 0 :=
  rfl

@[simp]
theorem countProviderCalls_cons_sse {μ : Type} (e : SSEEvent) (r : List (LoopEvent μ)) :
    countProviderCalls (.sse e :: r) = countProviderCalls r :=
  rfl

@[simp]
theorem countProviderCalls_cons_pc {μ : Type} (h : μ) (r : List (LoopEvent μ)) :
    countProviderCalls (.providerCall h :: r) = countProviderCalls r + 1 := by
  simp [countProviderCalls, List.filter_cons]

@[simp]
theorem countProviderCalls_append {μ : Type} (a b : List (LoopEvent μ)) :
    countProviderCalls (a ++ b) = countProviderCalls a + countProviderCalls b := by
  simp [countProviderCalls, List.filter_append]

@[simp]
theorem sseOf_nil {μ : Type} : sseOf ([] : List (LoopEvent μ)) = [] :=
  rfl

@[simp]
theorem sseOf_cons_sse {μ : Type} (e : SSEEvent) (r : List (LoopEvent μ)) :
    sseOf (.sse e :: r) = e :: sseOf r :=
  rfl

@[simp]
theorem sseOf_cons_pc {μ : Type} (h : μ) (r : List (LoopEvent μ)) :
    sseOf (.providerCall h :: r) = sseOf r :=
  rfl

@[simp]
theorem sseOf_append {μ : Type} (a b : List (LoopEvent μ)) :
    sseOf (a ++ b) = sseOf a ++ sseOf b := by
  simp [sseOf, List.filterMap_append]

/-!
## Gemini batch lemmas: the state after a batch
-/

theorem runGeminiBatch_completed (fetch : Nat → ToolCall → FetchOutcome)
    (i : Nat) (st : GeminiLoopState) (tcs : List GeminiToolCall) :
    ((runGeminiBatch fetch i st tcs).2.1).completed =
      (st.completed || tcs.any fun tc => tc.name == "supervisor_complete_task") := by
  induction tcs generalizing st with
  | nil => simp [runGeminiBatch]
  | cons tc rest ih =>
    simp only [runGeminiBatch, ih, List.any_cons]
    simp [Bool.or_assoc]

theorem runGeminiBatch_messages (fetch : Nat → ToolCall → FetchOutcome)
    (i : Nat) (st : GeminiLoopState) (tcs : List GeminiToolCall) :
    ((runGeminiBatch fetch i st tcs).2.1).messages = st.messages := by
  induction tcs generalizing st with
  | nil => simp [runGeminiBatch]
  | cons tc rest ih => simp only [runGeminiBatch, ih]

theorem runGeminiBatch_tokens (fetch : Nat → ToolCall → FetchOutcome)
    (i : Nat) (st : GeminiLoopState) (tcs : List GeminiToolCall) :
    ((runGeminiBatch fetch i st tcs).2.1).inputTokens = st.inputTokens ∧
      ((runGeminiBatch fetch i st tcs).2.1).outputTokens = st.outputTokens ∧
      ((runGeminiBatch fetch i st tcs).2.1).thinkingTokens = st.thinkingTokens := by
  induction tcs generalizing st with
  | nil => simp [runGeminiBatch]
  | cons tc rest ih => simpa only [runGeminiBatch] using ih _

theorem runGeminiBatch_noProviderCalls (fetch : Nat → ToolCall → FetchOutcome)
    (i : Nat) (st : GeminiLoopState) (tcs : List GeminiToolCall) :
    countProviderCalls (runGeminiBatch fetch i st tcs).1 = 0 := by
  induction tcs generalizing st with
  | nil => simp [runGeminiBatch]
  | cons tc rest ih => simpa only [runGeminiBatch] using ih _

@[simp]
theorem countProviderCalls_textEvents {μ : Type} (c : Bool) (e : SSEEvent) :
    countProviderCalls (if c then [LoopEvent.sse e] else ([] : List (LoopEvent μ))) = 0 := by
  split <;> rfl

@[simp]
theorem sseOf_textEvents {μ : Type} (c : Bool) (e : SSEEvent) :
    sseOf (if c then [LoopEvent.sse e] else ([] : List (LoopEvent μ))) =
      if c then [e] else [] := by
  split <;> rfl

/-- A run of the streaming Gemini loop is never the empty event list. -/
theorem runGeminiAux_ne_nil (model : List GeminiMessage → GeminiResponse)
    (fetch : Nat → ToolCall → FetchOutcome) (fuel i : Nat) (st : GeminiLoopState) :
    runGeminiAux model fetch fuel i st ≠ [] := by
  cases fuel with
  | zero => simp [runGeminiAux]
  | succ f =>
    simp only [runGeminiAux]
    split
    · simp
    · split <;> simp

@[simp]
theorem geminiNextState_completed (fetch : Nat → ToolCall → FetchOutcome) (i : Nat)
    (resp : GeminiResponse) (st1 : GeminiLoopState) :
    (geminiNextState fetch i resp st1).completed =
      (st1.completed ||
        (resp.toolCalls.getD []).any fun tc => tc.name == "supervisor_complete_task") := by
  simp [geminiNextState, runGeminiBatch_completed]

theorem geminiAddTokens_completed (resp : GeminiResponse) (st : GeminiLoopState) :
    (geminiAddTokens resp st).completed = st.completed :=
  rfl

/-- Each iteration performs exactly one provider invocation, so a run with
`fuel` remaining iterations performs at most `fuel` of them. -/
theorem runGeminiAux_providerCalls_le (model : List GeminiMessage → GeminiResponse)
    (fetch : Nat → ToolCall → FetchOutcome) :
    ∀ (fuel i : Nat) (st : GeminiLoopState),
      countProviderCalls (runGeminiAux model fetch fuel i st) ≤ fuel := by
  intro fuel
  induction fuel with
  | zero => intro i st; simp [runGeminiAux]
  | succ f ih =>
    intro i st
    simp only [runGeminiAux]
    split
    · simp
    · split
      · simp [runGeminiBatch_noProviderCalls]
      · simp only [countProviderCalls_append, countProviderCalls_cons_pc,
          countProviderCalls_cons_sse, countProviderCalls_textEvents,
          runGeminiBatch_noProviderCalls]
        have h := ih (i + 1)
          (geminiNextState fetch i (model st.messages) (geminiAddTokens (model st.messages) st))
        omega

/-- Under a pathological model that always returns tool calls and never the
completion tool, a run started with `completed = false` performs exactly
`fuel` provider invocations and ends with `Done(false, false)`. -/
theorem runGeminiAux_pathological (model : List GeminiMessage → GeminiResponse)
    (fetch : Nat → ToolCall → FetchOutcome)
    (hTC : ∀ h, ((model h).toolCalls.getD []).isEmpty = false)
    (hNC : ∀ h, ((model h).toolCalls.getD []).any
      (fun tc => tc.name == "supervisor_complete_task") = false) :
    ∀ (fuel i : Nat) (st : GeminiLoopState), st.completed = false →
      countProviderCalls (runGeminiAux model fetch fuel i st) = fuel ∧
        (runGeminiAux model fetch fuel i st).getLast? =
          some (.sse (.done false false)) := by
  intro fuel
  induction fuel with
  | zero => intro i st hc; simp [runGeminiAux, hc]
  | succ f ih =>
    intro i st hc
    have hcomp :
        (geminiNextState fetch i (model st.messages)
          (geminiAddTokens (model st.messages) st)).completed = false := by
      rw [geminiNextState_completed, geminiAddTokens_completed, hc, hNC st.messages]
      rfl
    simp only [runGeminiAux, hTC st.messages, Bool.false_eq_true, if_false]
    rw [if_neg (by rw [hcomp]; simp)]
    have hrec := ih (i + 1)
      (geminiNextState fetch i (model st.messages) (geminiAddTokens (model st.messages) st))
      hcomp
    constructor
    · simp only [countProviderCalls_append, countProviderCalls_cons_pc,
        countProviderCalls_cons_sse, countProviderCalls_textEvents,
        runGeminiBatch_noProviderCalls, hrec.1]
      omega
    · rw [List.getLast?_append_of_ne_nil _
        (runGeminiAux_ne_nil model fetch f (i + 1) _)]
      exact hrec.2

/-- C1: every run of the agent loop performs at most the configured maximum
number of provider invocations, whose default is 50; and when the model
never stops producing tool calls (and never calls the completion tool), the
run still ends after exactly the maximum iteration count, emitting a
terminal `Done` with `completed = false` and `needsUserInput = false`. -/
theorem C1_provider_invocation_bound :
    (∀ (model : List GeminiMessage → GeminiResponse)
      (fetch : Nat → ToolCall → FetchOutcome)
      (msgs : List GeminiMessage) (n : Nat),
        countProviderCalls (runGeminiLoopStreaming model fetch msgs n) ≤ n) ∧
    defaultMaxIterations = 50 ∧
    (∀ (model : List GeminiMessage → GeminiResponse)
      (fetch : Nat → ToolCall → FetchOutcome)
      (msgs : List GeminiMessage) (n : Nat),
        (∀ h, ((model h).toolCalls.getD []).isEmpty = false) →
        (∀ h, ((model h).toolCalls.getD []).any
          (fun tc => tc.name == "supervisor_complete_task") = false) →
        countProviderCalls (runGeminiLoopStreaming model fetch msgs n) = n ∧
          (runGeminiLoopStreaming model fetch msgs n).getLast? =
            some (.sse (.done false false))) := by
  refine ⟨?_, rfl, ?_⟩
  · intro model fetch msgs n
    exact runGeminiAux_providerCalls_le model fetch n 0 (initialGeminiState msgs)
  · intro model fetch msgs n hTC hNC
    exact runGeminiAux_pathological model fetch hTC hNC n 0 (initialGeminiState msgs) rfl

/-- Witness for C1: a concrete model that always emits a `spotify_login`
call satisfies the hypotheses, and its 2-iteration run performs exactly 2
provider invocations and ends with `Done(false, false)`. -/
theorem C1_witness :
    (∀ h, ((demoModelLoop h).toolCalls.getD []).isEmpty = false) ∧
    (∀ h, ((demoModelLoop h).toolCalls.getD []).any
      (fun tc => tc.name == "supervisor_complete_task") = false) ∧
    countProviderCalls (runGeminiLoopStreaming demoModelLoop demoFetch [] 2) = 2 ∧
    (runGeminiLoopStreaming demoModelLoop demoFetch [] 2).getLast? =
      some (.sse (.done false false)) :=
  ⟨fun _ => rfl, fun _ => rfl,
    (C1_provider_invocation_bound.2.2 demoModelLoop demoFetch [] 2
      (fun _ => rfl) (fun _ => rfl)).1,
    (C1_provider_invocation_bound.2.2 demoModelLoop demoFetch [] 2
      (fun _ => rfl) (fun _ => rfl)).2⟩

/-- C2: in every provider-loop iteration whose turn has no tool calls, the
loop terminates at that iteration (exactly one provider invocation happens
in the remaining run) and emits a terminal `Done` whose `needsUserInput` is
`strTruthy` of the turn's text — true exactly when the turn produced
non-empty text — while `completed` stays false.  Stated for the streaming
Gemini loop (full event-stream shape, which instantiates to Scenario A) and
the non-streaming `runGeminiLoop`. -/
theorem C2_no_tool_calls_terminal :
    (∀ (model : List GeminiMessage → GeminiResponse)
      (fetch : Nat → ToolCall → FetchOutcome) (f i : Nat) (st : GeminiLoopState),
        st.completed = false →
        ((model st.messages).toolCalls.getD []).isEmpty = true →
        sseOf (runGeminiAux model fetch (f + 1) i st) =
          .tokens (st.inputTokens + (model st.messages).inputTokens)
            (st.outputTokens + (model st.messages).outputTokens)
            (st.thinkingTokens + (model st.messages).thinkingTokens)
            st.toolCallCount ::
          ((if strTruthy (model st.messages).text then
              [.textTrace ((model st.messages).text.getD "")]
            else []) ++
            [.done false (strTruthy (model st.messages).text)]) ∧
        countProviderCalls (runGeminiAux model fetch (f + 1) i st) = 1) ∧
    (∀ t : Option String, strTruthy t = true ↔ ∃ s, t = some s ∧ s ≠ "") ∧
    (∀ (model : List GeminiMessage → GeminiResponse)
      (fetch : Nat → ToolCall → FetchOutcome) (f i : Nat) (st : GeminiNSState),
        st.completed = false →
        ((model st.messages).toolCalls.getD []).isEmpty = true →
        (runGeminiLoopAux model fetch (f + 1) i st).needsUserInput =
            strTruthy (model st.messages).text ∧
          (runGeminiLoopAux model fetch (f + 1) i st).completed = false ∧
          (runGeminiLoopAux model fetch (f + 1) i st).trace =
            st.trace ++
              (if strTruthy (model st.messages).text then
                [⟨.text, (model st.messages).text.getD "", none, none⟩]
              else [])) := by
  refine ⟨?_, ?_, ?_⟩
  · intro model fetch f i st hc hEmpty
    simp only [runGeminiAux, hEmpty, if_true]
    constructor
    · simp [geminiAddTokens, hc]
    · simp
  · intro t
    cases t with
    | none => simp [strTruthy]
    | some s => simp [strTruthy]
  · intro model fetch f i st hc hEmpty
    simp only [runGeminiLoopAux, hEmpty, if_true]
    refine ⟨trivial, ?_, ?_⟩
    · simp only [geminiTextStepNS]
      split <;> simp [geminiAddTokensNS, hc]
    · simp only [geminiTextStepNS]
      split <;> simp [geminiAddTokensNS, *]

/-- Witness for C2, instantiating Scenario A: history
`[UserTurn("what is my balance")]`, model returns no tool calls and text
`"You have $42"`; the run emits one `Text` event with that content followed
by `Done(completed = false, needsUserInput = true)`. -/
theorem C2_witness :
    ((demoModelTextOnly [⟨.user, [{ text := some "what is my balance" }]⟩]).toolCalls.getD
        []).isEmpty = true ∧
    sseOf (runGeminiAux demoModelTextOnly demoFetch 50 0
        (initialGeminiState [⟨.user, [{ text := some "what is my balance" }]⟩])) =
      [.tokens 3 4 0 0, .textTrace "You have $42", .done false true] ∧
    countProviderCalls (runGeminiAux demoModelTextOnly demoFetch 50 0
        (initialGeminiState [⟨.user, [{ text := some "what is my balance" }]⟩])) = 1 ∧
    (runGeminiLoopAux demoModelTextOnly demoFetch 50 0
        (initialGeminiNSState [⟨.user, [{ text := some "what is my balance" }]⟩])).needsUserInput =
      true :=
  ⟨rfl,
    (C2_no_tool_calls_terminal.1 demoModelTextOnly demoFetch 49 0
      (initialGeminiState [⟨.user, [{ text := some "what is my balance" }]⟩]) rfl rfl).1,
    (C2_no_tool_calls_terminal.1 demoModelTextOnly demoFetch 49 0
      (initialGeminiState [⟨.user, [{ text := some "what is my balance" }]⟩]) rfl rfl).2,
    (C2_no_tool_calls_terminal.2.2 demoModelTextOnly demoFetch 49 0
      (initialGeminiNSState [⟨.user, [{ text := some "what is my balance" }]⟩]) rfl rfl).1⟩

@[simp]
theorem toolEvents_nil {μ : Type} : toolEvents ([] : List (LoopEvent μ)) = [] :=
  rfl

@[simp]
theorem toolEvents_cons_pc {μ : Type} (h : μ) (r : List (LoopEvent μ)) :
    toolEvents (.providerCall h :: r) = toolEvents r :=
  rfl

@[simp]
theorem toolEvents_cons_tokens {μ : Type} (a b c : Int) (n : Nat) (r : List (LoopEvent μ)) :
    toolEvents (.sse (.tokens a b c n) :: r) = toolEvents r :=
  rfl

@[simp]
theorem toolEvents_cons_text {μ : Type} (s : String) (r : List (LoopEvent μ)) :
    toolEvents (.sse (.textTrace s) :: r) = toolEvents r :=
  rfl

@[simp]
theorem toolEvents_cons_done {μ : Type} (c u : Bool) (r : List (LoopEvent μ)) :
    toolEvents (.sse (.done c u) :: r) = toolEvents r :=
  rfl

@[simp]
theorem toolEvents_cons_call {μ : Type} (n c : String) (a : Args) (r : List (LoopEvent μ)) :
    toolEvents (.sse (.toolCallTrace n c a) :: r) = (true, n) :: toolEvents r :=
  rfl

@[simp]
theorem toolEvents_cons_result {μ : Type} (n c : String) (r : List (LoopEvent μ)) :
    toolEvents (.sse (.toolResultTrace n c) :: r) = (false, n) :: toolEvents r :=
  rfl

@[simp]
theorem doneEvents_nil {μ : Type} : doneEvents ([] : List (LoopEvent μ)) = [] :=
  rfl

@[simp]
theorem doneEvents_cons_pc {μ : Type} (h : μ) (r : List (LoopEvent μ)) :
    doneEvents (.providerCall h :: r) = doneEvents r :=
  rfl

@[simp]
theorem doneEvents_cons_tokens {μ : Type} (a b c : Int) (n : Nat) (r : List (LoopEvent μ)) :
    doneEvents (.sse (.tokens a b c n) :: r) = doneEvents r :=
  rfl

@[simp]
theorem doneEvents_cons_text {μ : Type} (s : String) (r : List (LoopEvent μ)) :
    doneEvents (.sse (.textTrace s) :: r) = doneEvents r :=
  rfl

@[simp]
theorem doneEvents_cons_call {μ : Type} (n c : String) (a : Args) (r : List (LoopEvent μ)) :
    doneEvents (.sse (.toolCallTrace n c a) :: r) = doneEvents r :=
  rfl

@[simp]
theorem doneEvents_cons_result {μ : Type} (n c : String) (r : List (LoopEvent μ)) :
    doneEvents (.sse (.toolResultTrace n c) :: r) = doneEvents r :=
  rfl

@[simp]
theorem doneEvents_cons_done {μ : Type} (c u : Bool) (r : List (LoopEvent μ)) :
    doneEvents (.sse (.done c u) :: r) = (c, u) :: doneEvents r :=
  rfl

@[simp]
theorem tokensEvents_nil {μ : Type} : tokensEvents ([] : List (LoopEvent μ)) = [] :=
  rfl

@[simp]
theorem tokensEvents_cons_pc {μ : Type} (h : μ) (r : List (LoopEvent μ)) :
    tokensEvents (.providerCall h :: r) = tokensEvents r :=
  rfl

@[simp]
theorem tokensEvents_cons_tokens {μ : Type} (a b c : Int) (n : Nat) (r : List (LoopEvent μ)) :
    tokensEvents (.sse (.tokens a b c n) :: r) = (a, b, c) :: tokensEvents r :=
  rfl

@[simp]
theorem tokensEvents_cons_text {μ : Type} (s : String) (r : List (LoopEvent μ)) :
    tokensEvents (.sse (.textTrace s) :: r) = tokensEvents r :=
  rfl

@[simp]
theorem tokensEvents_cons_call {μ : Type} (n c : String) (a : Args) (r : List (LoopEvent μ)) :
    tokensEvents (.sse (.toolCallTrace n c a) :: r) = tokensEvents r :=
  rfl

@[simp]
theorem tokensEvents_cons_result {μ : Type} (n c : String) (r : List (LoopEvent μ)) :
    tokensEvents (.sse (.toolResultTrace n c) :: r) = tokensEvents r :=
  rfl

@[simp]
theorem tokensEvents_cons_done {μ : Type} (c u : Bool) (r : List (LoopEvent μ)) :
    tokensEvents (.sse (.done c u) :: r) = tokensEvents r :=
  rfl

@[simp]
theorem toolResultContents_nil {μ : Type} :
    toolResultContents ([] : List (LoopEvent μ)) = [] :=
  rfl

@[simp]
theorem toolResultContents_cons_pc {μ : Type} (h : μ) (r : List (LoopEvent μ)) :
    toolResultContents (.providerCall h :: r) = toolResultContents r :=
  rfl

@[simp]
theorem toolResultContents_cons_tokens {μ : Type} (a b c : Int) (n : Nat)
    (r : List (LoopEvent μ)) :
    toolResultContents (.sse (.tokens a b c n) :: r) = toolResultContents r :=
  rfl

@[simp]
theorem toolResultContents_cons_text {μ : Type} (s : String) (r : List (LoopEvent μ)) :
    toolResultContents (.sse (.textTrace s) :: r) = toolResultContents r :=
  rfl

@[simp]
theorem toolResultContents_cons_call {μ : Type} (n c : String) (a : Args)
    (r : List (LoopEvent μ)) :
    toolResultContents (.sse (.toolCallTrace n c a) :: r) = toolResultContents r :=
  rfl

@[simp]
theorem toolResultContents_cons_result {μ : Type} (n c : String) (r : List (LoopEvent μ)) :
    toolResultContents (.sse (.toolResultTrace n c) :: r) = c :: toolResultContents r :=
  rfl

@[simp]
theorem toolResultContents_cons_done {μ : Type} (c u : Bool) (r : List (LoopEvent μ)) :
    toolResultContents (.sse (.done c u) :: r) = toolResultContents r :=
  rfl

@[simp]
theorem toolEvents_append {μ : Type} (a b : List (LoopEvent μ)) :
    toolEvents (a ++ b) = toolEvents a ++ toolEvents b := by
  simp [toolEvents, List.filterMap_append]

@[simp]
theorem doneEvents_append {μ : Type} (a b : List (LoopEvent μ)) :
    doneEvents (a ++ b) = doneEvents a ++ doneEvents b := by
  simp [doneEvents, List.filterMap_append]

@[simp]
theorem tokensEvents_append {μ : Type} (a b : List (LoopEvent μ)) :
    tokensEvents (a ++ b) = tokensEvents a ++ tokensEvents b := by
  simp [tokensEvents, List.filterMap_append]

@[simp]
theorem toolResultContents_append {μ : Type} (a b : List (LoopEvent μ)) :
    toolResultContents (a ++ b) = toolResultContents a ++ toolResultContents b := by
  simp [toolResultContents, List.filterMap_append]

@[simp]
theorem toolEvents_textEvents {μ : Type} (c : Bool) (s : String) :
    toolEvents (if c then [LoopEvent.sse (SSEEvent.textTrace s)] else ([] : List (LoopEvent μ))) = [] := by
  split <;> rfl

@[simp]
theorem doneEvents_textEvents {μ : Type} (c : Bool) (s : String) :
    doneEvents (if c then [LoopEvent.sse (SSEEvent.textTrace s)] else ([] : List (LoopEvent μ))) = [] := by
  split <;> rfl

@[simp]
theorem tokensEvents_textEvents {μ : Type} (c : Bool) (s : String) :
    tokensEvents (if c then [LoopEvent.sse (SSEEvent.textTrace s)] else ([] : List (LoopEvent μ))) = [] := by
  split <;> rfl

@[simp]
theorem toolResultContents_textEvents {μ : Type} (c : Bool) (s : String) :
    toolResultContents (if c then [LoopEvent.sse (SSEEvent.textTrace s)] else ([] : List (LoopEvent μ))) = [] := by
  split <;> rfl

/-- The events of a Gemini batch: per call, in order, its `tool_call` trace
event followed (after a token update) by its `tool_result` trace event. -/
theorem runGeminiBatch_toolEvents (fetch : Nat → ToolCall → FetchOutcome)
    (i : Nat) (st : GeminiLoopState) (tcs : List GeminiToolCall) :
    toolEvents (runGeminiBatch fetch i st tcs).1 =
      tcs.flatMap fun tc => [(true, tc.name), (false, tc.name)] := by
  induction tcs generalizing st with
  | nil => simp [runGeminiBatch]
  | cons tc rest ih => simp [runGeminiBatch, ih]

/-- A Gemini batch emits no `done` events. -/
theorem runGeminiBatch_doneEvents (fetch : Nat → ToolCall → FetchOutcome)
    (i : Nat) (st : GeminiLoopState) (tcs : List GeminiToolCall) :
    doneEvents (runGeminiBatch fetch i st tcs).1 = [] := by
  induction tcs generalizing st with
  | nil => simp [runGeminiBatch]
  | cons tc rest ih => simp [runGeminiBatch, ih]

theorem geminiAddTokensNS_completed (resp : GeminiResponse) (st : GeminiNSState) :
    (geminiAddTokensNS resp st).completed = st.completed :=
  rfl

theorem geminiTextStepNS_completed (resp : GeminiResponse) (st : GeminiNSState) :
    (geminiTextStepNS resp st).completed = st.completed := by
  simp only [geminiTextStepNS]
  split <;> rfl

theorem runGeminiBatchNS_completed (fetch : Nat → ToolCall → FetchOutcome)
    (i : Nat) (st : GeminiNSState) (tcs : List GeminiToolCall) :
    ((runGeminiBatchNS fetch i st tcs).1).completed =
      (st.completed ||
        tcs.any fun tc => tc.name == "supervisor_complete_task") := by
  induction tcs generalizing st with
  | nil => simp [runGeminiBatchNS]
  | cons tc rest ih =>
    simp only [runGeminiBatchNS, ih, List.any_cons]
    simp [Bool.or_assoc]

@[simp]
theorem geminiNextStateNS_completed (fetch : Nat → ToolCall → FetchOutcome) (i : Nat)
    (resp : GeminiResponse) (st2 : GeminiNSState) :
    (geminiNextStateNS fetch i resp st2).completed =
      (st2.completed ||
        (resp.toolCalls.getD []).any fun tc => tc.name == "supervisor_complete_task") := by
  simp [geminiNextStateNS, runGeminiBatchNS_completed]

/-- C3: when a batch contains a call to the completion tool
`supervisor_complete_task`, every call of the batch still executes in order
— the run's tool events are exactly, per call in batch order, a `tool_call`
event followed by its `tool_result` event — and no further provider
invocation occurs: exactly one `Done` event is emitted, with
`completed = true` and `needsUserInput = false`, regardless of whether the
iteration also produced text.  Stated for the streaming Gemini loop and, via
result fields and fuel-invariance (no further iteration consumed), for the
non-streaming `runGeminiLoop`. -/
theorem C3_completion_short_circuit :
    (∀ (model : List GeminiMessage → GeminiResponse)
      (fetch : Nat → ToolCall → FetchOutcome) (f i : Nat) (st : GeminiLoopState)
      (tcs : List GeminiToolCall),
        st.completed = false →
        (model st.messages).toolCalls.getD [] = tcs →
        tcs.isEmpty = false →
        tcs.any (fun tc => tc.name == "supervisor_complete_task") = true →
        toolEvents (runGeminiAux model fetch (f + 1) i st) =
          (tcs.flatMap fun tc => [(true, tc.name), (false, tc.name)]) ∧
        doneEvents (runGeminiAux model fetch (f + 1) i st) = [(true, false)] ∧
        countProviderCalls (runGeminiAux model fetch (f + 1) i st) = 1) ∧
    (∀ (model : List GeminiMessage → GeminiResponse)
      (fetch : Nat → ToolCall → FetchOutcome) (f i : Nat) (st : GeminiNSState)
      (tcs : List GeminiToolCall),
        st.completed = false →
        (model st.messages).toolCalls.getD [] = tcs →
        tcs.isEmpty = false →
        tcs.any (fun tc => tc.name == "supervisor_complete_task") = true →
        (runGeminiLoopAux model fetch (f + 1) i st).completed = true ∧
        (runGeminiLoopAux model fetch (f + 1) i st).needsUserInput = false ∧
        ∀ g : Nat, runGeminiLoopAux model fetch (f + 1) i st =
          runGeminiLoopAux model fetch (g + 1) i st) := by
  constructor
  · intro model fetch f i st tcs hc hTCs hEmpty hAny
    have hcomp : (geminiNextState fetch i (model st.messages)
        (geminiAddTokens (model st.messages) st)).completed = true := by
      rw [geminiNextState_completed, geminiAddTokens_completed, hc, hTCs, hAny]
      rfl
    simp only [runGeminiAux, hTCs, hEmpty, Bool.false_eq_true, if_false]
    rw [if_pos hcomp]
    refine ⟨?_, ?_, ?_⟩
    · simp [runGeminiBatch_toolEvents, hTCs]
    · rw [hcomp]
      simp [runGeminiBatch_doneEvents]
    · simp [runGeminiBatch_noProviderCalls]
  · intro model fetch f i st tcs hc hTCs hEmpty hAny
    have hcomp : (geminiNextStateNS fetch i (model st.messages)
        (geminiTextStepNS (model st.messages) (geminiAddTokensNS (model st.messages) st))).completed = true := by
      rw [geminiNextStateNS_completed, geminiTextStepNS_completed,
        geminiAddTokensNS_completed, hc, hTCs, hAny]
      rfl
    simp only [runGeminiLoopAux, hTCs, hEmpty, Bool.false_eq_true, if_false]
    rw [if_pos hcomp]
    refine ⟨hcomp, rfl, ?_⟩
    intro g
    rw [if_pos hcomp]

/-- Witness for C3, instantiating Scenario B: the model bundles
`venmo_get_balance` with `supervisor_complete_task` (plus text) in one
batch; both calls get their `tool_call`/`tool_result` event pairs in order,
one `Done(true, false)` is emitted, and only one provider invocation
happens. -/
theorem C3_witness :
    ((demoModelComplete []).toolCalls.getD [] =
      [⟨"venmo_get_balance", []⟩, ⟨"supervisor_complete_task", []⟩]) ∧
    toolEvents (runGeminiAux demoModelComplete demoFetch 50 0 (initialGeminiState [])) =
      [(true, "venmo_get_balance"), (false, "venmo_get_balance"),
       (true, "supervisor_complete_task"), (false, "supervisor_complete_task")] ∧
    doneEvents (runGeminiAux demoModelComplete demoFetch 50 0 (initialGeminiState [])) =
      [(true, false)] ∧
    countProviderCalls
      (runGeminiAux demoModelComplete demoFetch 50 0 (initialGeminiState [])) = 1 :=
  ⟨rfl,
    (C3_completion_short_circuit.1 demoModelComplete demoFetch 49 0 (initialGeminiState [])
      [⟨"venmo_get_balance", []⟩, ⟨"supervisor_complete_task", []⟩]
      rfl rfl rfl rfl).1,
    (C3_completion_short_circuit.1 demoModelComplete demoFetch 49 0 (initialGeminiState [])
      [⟨"venmo_get_balance", []⟩, ⟨"supervisor_complete_task", []⟩]
      rfl rfl rfl rfl).2.1,
    (C3_completion_short_circuit.1 demoModelComplete demoFetch 49 0 (initialGeminiState [])
      [⟨"venmo_get_balance", []⟩, ⟨"supervisor_complete_task", []⟩]
      rfl rfl rfl rfl).2.2⟩

/-!
## C4: ordering of tool events and provider invocations
-/

@[simp]
theorem scanPending_nil {μ : Type} (p : Nat) :
    scanPending ([] : List (LoopEvent μ)) p = some p :=
  rfl

@[simp]
theorem scanPending_cons_pc {μ : Type} (h : μ) (r : List (LoopEvent μ)) (p : Nat) :
    scanPending (.providerCall h :: r) p = if p == 0 then scanPending r 0 else none :=
  rfl

@[simp]
theorem scanPending_cons_tokens {μ : Type} (a b c : Int) (n : Nat)
    (r : List (LoopEvent μ)) (p : Nat) :
    scanPending (.sse (.tokens a b c n) :: r) p = scanPending r p :=
  rfl

@[simp]
theorem scanPending_cons_text {μ : Type} (s : String) (r : List (LoopEvent μ)) (p : Nat) :
    scanPending (.sse (.textTrace s) :: r) p = scanPending r p :=
  rfl

@[simp]
theorem scanPending_cons_done {μ : Type} (c u : Bool) (r : List (LoopEvent μ)) (p : Nat) :
    scanPending (.sse (.done c u) :: r) p = scanPending r p :=
  rfl

@[simp]
theorem scanPending_cons_call {μ : Type} (n c : String) (a : Args)
    (r : List (LoopEvent μ)) (p : Nat) :
    scanPending (.sse (.toolCallTrace n c a) :: r) p = scanPending r (p + 1) :=
  rfl

@[simp]
theorem scanPending_cons_result {μ : Type} (n c : String)
    (r : List (LoopEvent μ)) (p : Nat) :
    scanPending (.sse (.toolResultTrace n c) :: r) p =
      if p == 0 then none else scanPending r (p - 1) :=
  rfl

@[simp]
theorem scanPending_cons_error {μ : Type} (m : String) (d : Option String)
    (r : List (LoopEvent μ)) (p : Nat) :
    scanPending (.sse (.errorEvent m d) :: r) p = scanPending r p :=
  rfl

theorem scanPending_append {μ : Type} (a b : List (LoopEvent μ)) (p : Nat) :
    scanPending (a ++ b) p = (scanPending a p).bind fun q => scanPending b q := by
  induction a generalizing p with
  | nil => simp
  | cons e rest ih =>
    cases e with
    | providerCall h =>
      rw [List.cons_append, scanPending_cons_pc, scanPending_cons_pc]
      split <;> simp [ih]
    | sse s =>
      cases s <;>
        simp only [List.cons_append, scanPending_cons_tokens, scanPending_cons_text,
          scanPending_cons_done, scanPending_cons_call, scanPending_cons_result,
          scanPending_cons_error, ih]
      split <;> simp [ih]

@[simp]
theorem scanPending_textEvents {μ : Type} (c : Bool) (s : String) (p : Nat) :
    scanPending (if c then [LoopEvent.sse (SSEEvent.textTrace s)] else ([] : List (LoopEvent μ))) p =
      some p := by
  split <;> rfl

theorem scanPending_runGeminiBatch (fetch : Nat → ToolCall → FetchOutcome) (i : Nat) :
    ∀ (tcs : List GeminiToolCall) (st : GeminiLoopState) (p : Nat),
      scanPending (runGeminiBatch fetch i st tcs).1 p = some p := by
  intro tcs
  induction tcs with
  | nil => intro st p; simp [runGeminiBatch]
  | cons tc rest ih => intro st p; simp [runGeminiBatch, ih]

theorem scanPending_runAnthropicBatch (fetch : Nat → ToolCall → FetchOutcome) :
    ∀ (tcs : List AnthropicToolCall) (st : AnthropicLoopState) (p : Nat),
      scanPending (runAnthropicBatch fetch st tcs).1 p = some p := by
  intro tcs
  induction tcs with
  | nil => intro st p; simp [runAnthropicBatch]
  | cons tc rest ih => intro st p; simp [runAnthropicBatch, ih]

theorem scanPending_runOpenAIBatch (fetch : Nat → ToolCall → FetchOutcome) :
    ∀ (tcs : List OpenAIToolCall) (st : OpenAILoopState) (p : Nat),
      scanPending (runOpenAIBatch fetch st tcs).1 p = some p := by
  intro tcs
  induction tcs with
  | nil => intro st p; simp [runOpenAIBatch]
  | cons tc rest ih => intro st p; simp [runOpenAIBatch, ih]

theorem scanPending_runGeminiAux (model : List GeminiMessage → GeminiResponse)
    (fetch : Nat → ToolCall → FetchOutcome) :
    ∀ (fuel i : Nat) (st : GeminiLoopState),
      scanPending (runGeminiAux model fetch fuel i st) 0 = some 0 := by
  intro fuel
  induction fuel with
  | zero => intro i st; simp [runGeminiAux]
  | succ f ih =>
    intro i st
    simp only [runGeminiAux]
    split
    · simp [scanPending_append]
    · split <;>
        simp [scanPending_append, scanPending_runGeminiBatch, ih]

theorem scanPending_runAnthropicAux (model : List AnthropicMessage → AnthropicResponse)
    (fetch : Nat → ToolCall → FetchOutcome) :
    ∀ (fuel : Nat) (st : AnthropicLoopState),
      scanPending (runAnthropicAux model fetch fuel st) 0 = some 0 := by
  intro fuel
  induction fuel with
  | zero => intro st; simp [runAnthropicAux]
  | succ f ih =>
    intro st
    simp only [runAnthropicAux]
    split
    · simp [scanPending_append]
    · split <;>
        simp [scanPending_append, scanPending_runAnthropicBatch, ih]

theorem scanPending_runOpenAIAux (model : List OpenAIMessage → OpenAIResponse)
    (fetch : Nat → ToolCall → FetchOutcome) :
    ∀ (fuel : Nat) (st : OpenAILoopState),
      scanPending (runOpenAIAux model fetch fuel st) 0 = some 0 := by
  intro fuel
  induction fuel with
  | zero => intro st; simp [runOpenAIAux]
  | succ f ih =>
    intro st
    simp only [runOpenAIAux]
    split
    · simp [scanPending_append]
    · split <;>
        simp [scanPending_append, scanPending_runOpenAIBatch, ih]

/-- C4: in every run of each of the three streaming loops, for every tool
call of every batch the `tool_call` trace event is emitted strictly before
its `tool_result` trace event, and both are emitted before the next provider
invocation (`orderedRun` encodes exactly this discipline; see its doc
comment). -/
theorem C4_tool_event_ordering :
    (∀ (model : List GeminiMessage → GeminiResponse)
      (fetch : Nat → ToolCall → FetchOutcome)
      (msgs : List GeminiMessage) (n : Nat),
        orderedRun (runGeminiLoopStreaming model fetch msgs n) = true) ∧
    (∀ (model : List AnthropicMessage → AnthropicResponse)
      (fetch : Nat → ToolCall → FetchOutcome)
      (msgs : List AnthropicMessage) (n : Nat),
        orderedRun (runAnthropicLoopStreaming model fetch msgs n) = true) ∧
    (∀ (model : List OpenAIMessage → OpenAIResponse)
      (fetch : Nat → ToolCall → FetchOutcome)
      (msgs : List OpenAIMessage) (n : Nat),
        orderedRun (runOpenAILoopStreaming model fetch msgs n) = true) := by
  refine ⟨?_, ?_, ?_⟩
  · intro model fetch msgs n
    simp [orderedRun, runGeminiLoopStreaming, scanPending_runGeminiAux]
  · intro model fetch msgs n
    simp [orderedRun, runAnthropicLoopStreaming, scanPending_runAnthropicAux]
  · intro model fetch msgs n
    simp [orderedRun, runOpenAILoopStreaming, scanPending_runOpenAIAux]

/-!
## C5/C7: tool resolution and recoverable failures
-/

/-- At least one provider invocation happens whenever at least one iteration
of fuel remains. -/
theorem runGeminiAux_providerCalls_pos (model : List GeminiMessage → GeminiResponse)
    (fetch : Nat → ToolCall → FetchOutcome) (f i : Nat) (st : GeminiLoopState) :
    1 ≤ countProviderCalls (runGeminiAux model fetch (f + 1) i st) := by
  simp only [runGeminiAux]
  split
  · simp
  · split <;>
      (simp only [countProviderCalls_append, countProviderCalls_cons_pc,
        countProviderCalls_cons_sse, countProviderCalls_textEvents,
        countProviderCalls_nil, runGeminiBatch_noProviderCalls]; omega)

/-- When the current turn has tool calls and none of them is the completion
tool, the loop proceeds to the next iteration: with two iterations of fuel
left, at least two provider invocations happen. -/
theorem runGeminiAux_continues (model : List GeminiMessage → GeminiResponse)
    (fetch : Nat → ToolCall → FetchOutcome) (f i : Nat) (st : GeminiLoopState)
    (hc : st.completed = false)
    (hTC : ((model st.messages).toolCalls.getD []).isEmpty = false)
    (hNC : ((model st.messages).toolCalls.getD []).any
      (fun tc => tc.name == "supervisor_complete_task") = false) :
    2 ≤ countProviderCalls (runGeminiAux model fetch (f + 2) i st) := by
  have hcomp : (geminiNextState fetch i (model st.messages)
      (geminiAddTokens (model st.messages) st)).completed = false := by
    rw [geminiNextState_completed, geminiAddTokens_completed, hc, hNC]
    rfl
  rw [show f + 2 = (f + 1) + 1 by omega]
  rw [runGeminiAux]
  simp only [hTC, Bool.false_eq_true, if_false]
  rw [if_neg (by rw [hcomp]; simp)]
  simp only [countProviderCalls_append, countProviderCalls_cons_pc,
    countProviderCalls_cons_sse, countProviderCalls_textEvents,
    runGeminiBatch_noProviderCalls]
  have hp := runGeminiAux_providerCalls_pos model fetch f (i + 1)
    (geminiNextState fetch i (model st.messages) (geminiAddTokens (model st.messages) st))
  omega

/-- Counterexample to C5 as stated: with only the `gmail` service enabled,
the name `spotify_login` is NOT in the active registry subset selected by
the caller, yet `executeToolCall` resolves it (resolution consults the
global registry, ignoring the enabled subset), executes it, and returns the
world's ordinary output rather than anything matching an "unknown tool"
error pattern. -/
theorem C5_counterexample :
    ((getEnabledFunctions ["gmail"]).map (fun f => f.name)).contains "spotify_login" =
      false ∧
    (getFunctionByName "spotify_login").isSome = true ∧
    executeToolCall ⟨"id1", "spotify_login", []⟩
        (.ok ⟨some "balance: 12", none, none, none⟩) = "balance: 12" ∧
    ¬ ∃ rest : String, "balance: 12" = "Error" ++ rest := by
  refine ⟨rfl, rfl, rfl, ?_⟩
  rintro ⟨rest, h⟩
  have hd := congrArg String.data h
  simp [String.data_append] at hd

/-- C5 (amended): the "unknown tool" error is produced exactly for names
absent from the GLOBAL registry (base tools, the internal `execute_python`,
and every service's functions) — the enabled-services subset plays no role
in resolution — and for such a call the loop still proceeds to the next
iteration rather than raising. -/
theorem C5_unknown_tool_resolution :
    (∀ (tc : ToolCall) (outcome : FetchOutcome),
      getFunctionByName tc.name = none →
      executeToolCall tc outcome = "Error: Unknown function \"" ++ tc.name ++ "\"") ∧
    (∀ (model : List GeminiMessage → GeminiResponse)
      (fetch : Nat → ToolCall → FetchOutcome) (f i : Nat) (st : GeminiLoopState),
        st.completed = false →
        ((model st.messages).toolCalls.getD []).isEmpty = false →
        ((model st.messages).toolCalls.getD []).any
          (fun tc => tc.name == "supervisor_complete_task") = false →
        2 ≤ countProviderCalls (runGeminiAux model fetch (f + 2) i st)) := by
  constructor
  · intro tc outcome hNone
    simp [executeToolCall, hNone]
  · intro model fetch f i st hc hTC hNC
    exact runGeminiAux_continues model fetch f i st hc hTC hNC

/-- Witness for C5 (amended): `not_a_real_tool` resolves nowhere, its
execution yields the unknown-function error string, and a loop whose model
keeps calling it proceeds to a second provider invocation. -/
theorem C5_witness :
    getFunctionByName "not_a_real_tool" = none ∧
    executeToolCall ⟨"id9", "not_a_real_tool", []⟩
        (.ok ⟨some "ignored", none, none, none⟩) =
      "Error: Unknown function \"not_a_real_tool\"" ∧
    2 ≤ countProviderCalls
      (runGeminiAux demoModelUnknownTool demoFetch 2 0 (initialGeminiState [])) :=
  ⟨rfl,
    C5_unknown_tool_resolution.1 ⟨"id9", "not_a_real_tool", []⟩
      (.ok ⟨some "ignored", none, none, none⟩) rfl,
    C5_unknown_tool_resolution.2 demoModelUnknownTool demoFetch 0 0
      (initialGeminiState []) rfl rfl rfl⟩

/-- Appending anything to an "Error"-prefixed string keeps the prefix. -/
theorem errorString_append (a b : String) (h : ∃ r, a = "Error" ++ r) :
    ∃ r, a ++ b = "Error" ++ r := by
  obtain ⟨r, hr⟩ := h
  exact ⟨r ++ b, by rw [hr, String.append_assoc]⟩

/-- The `tool_result` contents of a Gemini batch are exactly the per-call
`executeToolCall` outputs, in call order. -/
theorem runGeminiBatch_resultContents (fetch : Nat → ToolCall → FetchOutcome)
    (i : Nat) (st : GeminiLoopState) (tcs : List GeminiToolCall) :
    toolResultContents (runGeminiBatch fetch i st tcs).1 =
      geminiBatchResults fetch i st.toolCallCount tcs := by
  induction tcs generalizing st with
  | nil => simp [runGeminiBatch, geminiBatchResults]
  | cons tc rest ih => simp [runGeminiBatch, geminiBatchResults, ih]

/-- C7: neither a tool-resolution failure nor a World-Executor failure is
fatal.  `executeToolCall` is total (every path returns a string); an
unknown name yields an error string, every failed outcome yields a string
with the `"Error"` prefix, the batch places exactly these strings into its
`tool_result` events, and the loop continues to the next provider
invocation. -/
theorem C7_failures_contained :
    (∀ (tc : ToolCall) (outcome : FetchOutcome),
      getFunctionByName tc.name = none →
      ∃ r, executeToolCall tc outcome = "Error" ++ r) ∧
    (∀ (tc : ToolCall) (outcome : FetchOutcome),
      failedOutcome outcome = true →
      ∃ r, executeToolCall tc outcome = "Error" ++ r) ∧
    (∀ (fetch : Nat → ToolCall → FetchOutcome) (i : Nat) (st : GeminiLoopState)
      (tcs : List GeminiToolCall),
        toolResultContents (runGeminiBatch fetch i st tcs).1 =
          geminiBatchResults fetch i st.toolCallCount tcs) ∧
    (∀ (model : List GeminiMessage → GeminiResponse)
      (fetch : Nat → ToolCall → FetchOutcome) (f i : Nat) (st : GeminiLoopState),
        st.completed = false →
        ((model st.messages).toolCalls.getD []).isEmpty = false →
        ((model st.messages).toolCalls.getD []).any
          (fun tc => tc.name == "supervisor_complete_task") = false →
        2 ≤ countProviderCalls (runGeminiAux model fetch (f + 2) i st)) := by
  refine ⟨?_, ?_, runGeminiBatch_resultContents, runGeminiAux_continues⟩
  · intro tc outcome hNone
    simp only [executeToolCall, hNone]
    exact errorString_append _ _ (errorString_append _ _ ⟨": Unknown function \"", rfl⟩)
  · intro tc outcome hfail
    cases hfn : getFunctionByName tc.name with
    | none =>
      simp only [executeToolCall, hfn]
      exact errorString_append _ _ (errorString_append _ _ ⟨": Unknown function \"", rfl⟩)
    | some fn =>
      cases outcome with
      | httpError status body =>
        simp only [executeToolCall, hfn]
        exact errorString_append _ _ (errorString_append _ _
          (errorString_append _ _ ⟨": HTTP ", rfl⟩))
      | exn message =>
        simp only [executeToolCall, hfn]
        exact errorString_append _ _ ⟨" executing tool: ", rfl⟩
      | ok data =>
        have herr : strTruthy data.error = true := hfail
        simp only [executeToolCall, hfn, herr, if_true]
        exact errorString_append _ _ (errorString_append _ _ ⟨": ", rfl⟩)

/-- Witness for C7: an HTTP 500 failure on a resolvable tool yields an
"Error"-prefixed result string; the batch's `tool_result` contents are its
`executeToolCall` outputs; and a run whose batch consists of a failing
unknown tool still reaches a second provider invocation. -/
theorem C7_witness :
    failedOutcome (.httpError 500 "boom") = true ∧
    (∃ r, executeToolCall ⟨"id1", "gmail_login", []⟩ (.httpError 500 "boom") =
      "Error" ++ r) ∧
    toolResultContents
        (runGeminiBatch demoFetch 0 (initialGeminiState []) [⟨"not_a_real_tool", []⟩]).1 =
      geminiBatchResults demoFetch 0 0 [⟨"not_a_real_tool", []⟩] ∧
    2 ≤ countProviderCalls
      (runGeminiAux demoModelUnknownTool demoFetch 2 0 (initialGeminiState [])) :=
  ⟨rfl,
    C7_failures_contained.2.1 ⟨"id1", "gmail_login", []⟩ (.httpError 500 "boom") rfl,
    C7_failures_contained.2.2.1 demoFetch 0 (initialGeminiState []) [⟨"not_a_real_tool", []⟩],
    C7_failures_contained.2.2.2 demoModelUnknownTool demoFetch 0 0
      (initialGeminiState []) rfl rfl rfl⟩

/-!
## C6: token accounting
-/

theorem tokLE_refl (a : Int × Int × Int) : tokLE a a :=
  ⟨le_refl _, le_refl _, le_refl _⟩

@[simp]
theorem tokenTotals_nil : tokenTotals [] = (0, 0, 0) :=
  rfl

@[simp]
theorem tokenTotals_cons (r : GeminiResponse) (rs : List GeminiResponse) :
    tokenTotals (r :: rs) =
      (r.inputTokens + (tokenTotals rs).1, r.outputTokens + (tokenTotals rs).2.1,
        r.thinkingTokens + (tokenTotals rs).2.2) :=
  rfl

/-- The token events of a Gemini batch all repeat the totals at batch entry
(only the tool-call counter advances). -/
theorem runGeminiBatch_tokensEvents (fetch : Nat → ToolCall → FetchOutcome)
    (i : Nat) (st : GeminiLoopState) (tcs : List GeminiToolCall) :
    tokensEvents (runGeminiBatch fetch i st tcs).1 =
      List.replicate tcs.length (st.inputTokens, st.outputTokens, st.thinkingTokens) := by
  induction tcs generalizing st with
  | nil => simp [runGeminiBatch]
  | cons tc rest ih => simp [runGeminiBatch, ih, List.replicate_succ]

theorem chain'_cons_replicate {α : Type} (R : α → α → Prop) (a : α) (l : List α)
    (hrefl : R a a) (h : List.Chain' R (a :: l)) :
    ∀ n, List.Chain' R (a :: (List.replicate n a ++ l)) := by
  intro n
  induction n with
  | zero => simpa using h
  | succ m ih =>
    rw [List.replicate_succ, List.cons_append]
    exact List.Chain'.cons hrefl ih

@[simp]
theorem providerHistories_nil {μ : Type} :
    providerHistories ([] : List (LoopEvent μ)) = [] :=
  rfl

@[simp]
theorem providerHistories_cons_pc {μ : Type} (h : μ) (r : List (LoopEvent μ)) :
    providerHistories (.providerCall h :: r) = h :: providerHistories r :=
  rfl

@[simp]
theorem providerHistories_cons_sse {μ : Type} (e : SSEEvent) (r : List (LoopEvent μ)) :
    providerHistories (.sse e :: r) = providerHistories r :=
  rfl

@[simp]
theorem providerHistories_append {μ : Type} (a b : List (LoopEvent μ)) :
    providerHistories (a ++ b) = providerHistories a ++ providerHistories b := by
  simp [providerHistories, List.filterMap_append]

@[simp]
theorem providerHistories_textEvents {μ : Type} (c : Bool) (e : SSEEvent) :
    providerHistories (if c then [LoopEvent.sse e] else ([] : List (LoopEvent μ))) = [] := by
  split <;> rfl

/-- A Gemini batch performs no provider invocation. -/
theorem runGeminiBatch_providerHistories (fetch : Nat → ToolCall → FetchOutcome)
    (i : Nat) (st : GeminiLoopState) (tcs : List GeminiToolCall) :
    providerHistories (runGeminiBatch fetch i st tcs).1 = [] := by
  induction tcs generalizing st with
  | nil => simp [runGeminiBatch]
  | cons tc rest ih => simp [runGeminiBatch, ih]

/-- `geminiNextState` changes only the history and batch-tracked fields;
its token totals are those of the state entering the batch. -/
theorem geminiNextState_tokens (fetch : Nat → ToolCall → FetchOutcome) (i : Nat)
    (resp : GeminiResponse) (st1 : GeminiLoopState) :
    (geminiNextState fetch i resp st1).inputTokens = st1.inputTokens ∧
      (geminiNextState fetch i resp st1).outputTokens = st1.outputTokens ∧
      (geminiNextState fetch i resp st1).thinkingTokens = st1.thinkingTokens := by
  have h := runGeminiBatch_tokens fetch i st1 (resp.toolCalls.getD [])
  exact ⟨h.1, h.2.1, h.2.2⟩

/-- As long as every adapter-reported per-call value is non-negative, the
running totals — seeded with the entry state's totals — form a
non-decreasing chain along the emitted token events. -/
theorem runGeminiAux_tokens_chain (model : List GeminiMessage → GeminiResponse)
    (fetch : Nat → ToolCall → FetchOutcome)
    (hpos : ∀ h, 0 ≤ (model h).inputTokens ∧ 0 ≤ (model h).outputTokens ∧
      0 ≤ (model h).thinkingTokens) :
    ∀ (fuel i : Nat) (st : GeminiLoopState),
      List.Chain' tokLE
        ((st.inputTokens, st.outputTokens, st.thinkingTokens) ::
          tokensEvents (runGeminiAux model fetch fuel i st)) := by
  intro fuel
  induction fuel with
  | zero => intro i st; simp [runGeminiAux]
  | succ f ih =>
    intro i st
    have hstep : tokLE (st.inputTokens, st.outputTokens, st.thinkingTokens)
        ((geminiAddTokens (model st.messages) st).inputTokens,
          (geminiAddTokens (model st.messages) st).outputTokens,
          (geminiAddTokens (model st.messages) st).thinkingTokens) := by
      obtain ⟨h1, h2, h3⟩ := hpos st.messages
      refine ⟨?_, ?_, ?_⟩ <;> simp [geminiAddTokens] <;> omega
    simp only [runGeminiAux]
    split
    · simp only [tokensEvents_append, tokensEvents_cons_pc, tokensEvents_cons_tokens,
        tokensEvents_textEvents, tokensEvents_cons_done, tokensEvents_nil,
        List.append_nil]
      exact List.Chain'.cons hstep (List.chain'_singleton _)
    · have hbatch := runGeminiBatch_tokensEvents fetch i
        (geminiAddTokens (model st.messages) st) ((model st.messages).toolCalls.getD [])
      split
      · simp only [tokensEvents_append, tokensEvents_cons_pc, tokensEvents_cons_tokens,
          tokensEvents_textEvents, tokensEvents_cons_done, tokensEvents_nil,
          List.append_nil, List.nil_append, List.cons_append, List.singleton_append, hbatch]
        refine List.Chain'.cons hstep ?_
        simpa using chain'_cons_replicate tokLE _ [] (tokLE_refl _)
          (List.chain'_singleton _) _
      · have htok := geminiNextState_tokens fetch i (model st.messages)
          (geminiAddTokens (model st.messages) st)
        have hih := ih (i + 1)
          (geminiNextState fetch i (model st.messages) (geminiAddTokens (model st.messages) st))
        rw [htok.1, htok.2.1, htok.2.2] at hih
        simp only [tokensEvents_append, tokensEvents_cons_pc, tokensEvents_cons_tokens,
          tokensEvents_textEvents, tokensEvents_cons_done, tokensEvents_nil,
          List.append_nil, List.nil_append, List.cons_append, List.singleton_append, hbatch]
        exact List.Chain'.cons hstep
          (chain'_cons_replicate tokLE _ _ (tokLE_refl _) hih _)

/-- Every token event of a run reports exactly the entry totals plus the sum
of the adapter-reported values of some prefix of the responses consumed by
the run's provider invocations. -/
theorem runGeminiAux_tokens_partial (model : List GeminiMessage → GeminiResponse)
    (fetch : Nat → ToolCall → FetchOutcome) :
    ∀ (fuel i : Nat) (st : GeminiLoopState) (tv : Int × Int × Int),
      tv ∈ tokensEvents (runGeminiAux model fetch fuel i st) →
      ∃ k,
        tv = (st.inputTokens +
            (tokenTotals (((providerHistories (runGeminiAux model fetch fuel i st)).map model).take k)).1,
          st.outputTokens +
            (tokenTotals (((providerHistories (runGeminiAux model fetch fuel i st)).map model).take k)).2.1,
          st.thinkingTokens +
            (tokenTotals (((providerHistories (runGeminiAux model fetch fuel i st)).map model).take k)).2.2) := by
  intro fuel
  induction fuel with
  | zero => intro i st tv hm; simp [runGeminiAux] at hm
  | succ f ih =>
    intro i st tv hm
    by_cases hE : ((model st.messages).toolCalls.getD []).isEmpty = true
    · simp only [runGeminiAux, hE, if_true] at hm ⊢
      simp only [tokensEvents_append, tokensEvents_cons_pc, tokensEvents_cons_tokens,
        tokensEvents_textEvents, tokensEvents_cons_done, tokensEvents_nil,
        List.append_nil, List.nil_append, List.mem_singleton] at hm
      subst hm
      refine ⟨1, ?_⟩
      simp [geminiAddTokens]
    · have hE' : ((model st.messages).toolCalls.getD []).isEmpty = false :=
        Bool.not_eq_true _ |>.mp hE
      have hbatch := runGeminiBatch_tokensEvents fetch i
        (geminiAddTokens (model st.messages) st) ((model st.messages).toolCalls.getD [])
      by_cases hC : (geminiNextState fetch i (model st.messages)
          (geminiAddTokens (model st.messages) st)).completed = true
      · simp only [runGeminiAux, hE', Bool.false_eq_true, if_false] at hm ⊢
        rw [if_pos hC] at hm ⊢
        simp only [tokensEvents_append, tokensEvents_cons_pc, tokensEvents_cons_tokens,
          tokensEvents_textEvents, tokensEvents_cons_done, tokensEvents_nil,
          List.append_nil, List.nil_append, List.cons_append, List.singleton_append,
          hbatch, List.mem_cons] at hm
        rcases hm with hm | hm
        · subst hm
          refine ⟨1, ?_⟩
          simp [geminiAddTokens]
        · have := List.eq_of_mem_replicate hm
          subst this
          refine ⟨1, ?_⟩
          simp [geminiAddTokens]
      · simp only [runGeminiAux, hE', Bool.false_eq_true, if_false] at hm ⊢
        rw [if_neg hC] at hm ⊢
        simp only [tokensEvents_append, tokensEvents_cons_pc, tokensEvents_cons_tokens,
          tokensEvents_textEvents, tokensEvents_cons_done, tokensEvents_nil,
          List.append_nil, List.nil_append, List.cons_append, List.singleton_append,
          hbatch, List.mem_cons, List.mem_append] at hm
        have htok := geminiNextState_tokens fetch i (model st.messages)
          (geminiAddTokens (model st.messages) st)
        rcases hm with hm | hm | hm
        · subst hm
          refine ⟨1, ?_⟩
          simp [geminiAddTokens, runGeminiBatch_providerHistories]
        · have := List.eq_of_mem_replicate hm
          subst this
          refine ⟨1, ?_⟩
          simp [geminiAddTokens, runGeminiBatch_providerHistories]
        · obtain ⟨k, hk⟩ := ih (i + 1)
            (geminiNextState fetch i (model st.messages) (geminiAddTokens (model st.messages) st))
            tv hm
          refine ⟨k + 1, ?_⟩
          rw [hk, htok.1, htok.2.1, htok.2.2]
          simp only [providerHistories_append, providerHistories_cons_pc,
            providerHistories_cons_sse, providerHistories_textEvents,
            runGeminiBatch_providerHistories, List.nil_append, List.append_nil,
            List.cons_append, List.map_cons, List.take_succ_cons, tokenTotals_cons,
            geminiAddTokens]
          simp only [Prod.mk.injEq]
          refine ⟨by ring, by ring, by ring⟩

/-- Part-processing never touches the token fields of the response. -/
theorem callGeminiStep_tokens (resp : GeminiResponse) (part : Part) :
    (callGeminiStep resp part).inputTokens = resp.inputTokens ∧
      (callGeminiStep resp part).outputTokens = resp.outputTokens ∧
      (callGeminiStep resp part).thinkingTokens = resp.thinkingTokens := by
  obtain ⟨t, th, fc, fr⟩ := part
  cases t <;> cases fc <;>
    refine ⟨?_, ?_, ?_⟩ <;>
    simp only [callGeminiStep] <;>
    (try split) <;>
    rfl

theorem foldl_callGeminiStep_tokens (parts : List Part) :
    ∀ resp : GeminiResponse,
      ((parts.foldl callGeminiStep resp).inputTokens = resp.inputTokens ∧
        (parts.foldl callGeminiStep resp).outputTokens = resp.outputTokens ∧
        (parts.foldl callGeminiStep resp).thinkingTokens = resp.thinkingTokens) := by
  induction parts with
  | nil => intro resp; exact ⟨rfl, rfl, rfl⟩
  | cons p rest ih =>
    intro resp
    have h1 := callGeminiStep_tokens resp p
    have h2 := ih (callGeminiStep resp p)
    simp only [List.foldl_cons]
    exact ⟨h2.1.trans h1.1, h2.2.1.trans h1.2.1, h2.2.2.trans h1.2.2⟩

/-- The Gemini adapter's token accounting: input tokens are the vendor's
prompt count, thinking tokens the vendor's thought count, and output tokens
the candidate count minus the thought count — an unguarded `Int`
subtraction. -/
theorem callGemini_tokens (usage : UsageMetadata) (parts : List Part) :
    (callGemini usage parts).inputTokens = (usage.promptTokenCount.getD 0 : Int) ∧
      (callGemini usage parts).outputTokens =
        (usage.candidatesTokenCount.getD 0 : Int) - (usage.thoughtsTokenCount.getD 0 : Int) ∧
      (callGemini usage parts).thinkingTokens = (usage.thoughtsTokenCount.getD 0 : Int) :=
  foldl_callGeminiStep_tokens parts _

@[simp]
theorem tokensScan_nil (model : List GeminiMessage → GeminiResponse)
    (acc : Int × Int × Int) :
    tokensScan model [] acc = some acc :=
  rfl

@[simp]
theorem tokensScan_cons_pc (model : List GeminiMessage → GeminiResponse)
    (h : List GeminiMessage) (r : List (LoopEvent (List GeminiMessage)))
    (acc : Int × Int × Int) :
    tokensScan model (.providerCall h :: r) acc =
      tokensScan model r
        (acc.1 + (model h).inputTokens, acc.2.1 + (model h).outputTokens,
          acc.2.2 + (model h).thinkingTokens) :=
  rfl

@[simp]
theorem tokensScan_cons_tokens (model : List GeminiMessage → GeminiResponse)
    (a b c : Int) (n : Nat) (r : List (LoopEvent (List GeminiMessage)))
    (acc : Int × Int × Int) :
    tokensScan model (.sse (.tokens a b c n) :: r) acc =
      if a == acc.1 && b == acc.2.1 && c == acc.2.2 then tokensScan model r acc
      else none :=
  rfl

@[simp]
theorem tokensScan_cons_text (model : List GeminiMessage → GeminiResponse)
    (s : String) (r : List (LoopEvent (List GeminiMessage))) (acc : Int × Int × Int) :
    tokensScan model (.sse (.textTrace s) :: r) acc = tokensScan model r acc :=
  rfl

@[simp]
theorem tokensScan_cons_done (model : List GeminiMessage → GeminiResponse)
    (c u : Bool) (r : List (LoopEvent (List GeminiMessage))) (acc : Int × Int × Int) :
    tokensScan model (.sse (.done c u) :: r) acc = tokensScan model r acc :=
  rfl

@[simp]
theorem tokensScan_cons_call (model : List GeminiMessage → GeminiResponse)
    (n c : String) (a : Args) (r : List (LoopEvent (List GeminiMessage)))
    (acc : Int × Int × Int) :
    tokensScan model (.sse (.toolCallTrace n c a) :: r) acc = tokensScan model r acc :=
  rfl

@[simp]
theorem tokensScan_cons_result (model : List GeminiMessage → GeminiResponse)
    (n c : String) (r : List (LoopEvent (List GeminiMessage))) (acc : Int × Int × Int) :
    tokensScan model (.sse (.toolResultTrace n c) :: r) acc = tokensScan model r acc :=
  rfl

@[simp]
theorem tokensScan_cons_error (model : List GeminiMessage → GeminiResponse)
    (m : String) (d : Option String) (r : List (LoopEvent (List GeminiMessage)))
    (acc : Int × Int × Int) :
    tokensScan model (.sse (.errorEvent m d) :: r) acc = tokensScan model r acc :=
  rfl

@[simp]
theorem tokensScan_textEvents (model : List GeminiMessage → GeminiResponse)
    (c : Bool) (s : String) (acc : Int × Int × Int) :
    tokensScan model
      (if c then [LoopEvent.sse (SSEEvent.textTrace s)] else []) acc = some acc := by
  split <;> rfl

theorem tokensScan_append (model : List GeminiMessage → GeminiResponse)
    (a b : List (LoopEvent (List GeminiMessage))) (acc : Int × Int × Int) :
    tokensScan model (a ++ b) acc =
      (tokensScan model a acc).bind fun q => tokensScan model b q := by
  induction a generalizing acc with
  | nil => simp
  | cons e rest ih =>
    cases e with
    | providerCall h =>
      rw [List.cons_append, tokensScan_cons_pc, tokensScan_cons_pc, ih]
    | sse s =>
      cases s <;>
        simp only [List.cons_append, tokensScan_cons_tokens, tokensScan_cons_text,
          tokensScan_cons_done, tokensScan_cons_call, tokensScan_cons_result,
          tokensScan_cons_error, ih]
      split <;> simp [ih]

/-- A Gemini batch repeats the entry totals in its token events and leaves
the running sums unchanged: the scan accepts it with the same accumulator. -/
theorem tokensScan_runGeminiBatch (model : List GeminiMessage → GeminiResponse)
    (fetch : Nat → ToolCall → FetchOutcome) (i : Nat) :
    ∀ (tcs : List GeminiToolCall) (st : GeminiLoopState),
      tokensScan model (runGeminiBatch fetch i st tcs).1
          (st.inputTokens, st.outputTokens, st.thinkingTokens) =
        some (st.inputTokens, st.outputTokens, st.thinkingTokens) := by
  intro tcs
  induction tcs with
  | nil => intro st; simp [runGeminiBatch]
  | cons tc rest ih =>
    intro st
    simp only [runGeminiBatch, tokensScan_cons_call, tokensScan_cons_tokens,
      tokensScan_cons_result]
    rw [if_pos (by simp)]
    exact ih _

/-- The scan accepts every Gemini streaming run when seeded with the entry
state's totals: each token event reports exactly the entry totals plus the
sum of the adapter-reported values of the provider invocations made so far
within the run. -/
theorem tokensScan_runGeminiAux (model : List GeminiMessage → GeminiResponse)
    (fetch : Nat → ToolCall → FetchOutcome) :
    ∀ (fuel i : Nat) (st : GeminiLoopState),
      (tokensScan model (runGeminiAux model fetch fuel i st)
        (st.inputTokens, st.outputTokens, st.thinkingTokens)).isSome = true := by
  intro fuel
  induction fuel with
  | zero => intro i st; simp [runGeminiAux]
  | succ f ih =>
    intro i st
    simp only [runGeminiAux]
    split
    · simp only [tokensScan_append, tokensScan_cons_pc, tokensScan_cons_tokens,
        geminiAddTokens]
      rw [if_pos (by simp)]
      simp
    · split
      · simp only [tokensScan_append, tokensScan_cons_pc, tokensScan_cons_tokens,
          geminiAddTokens]
        rw [if_pos (by simp)]
        simp only [tokensScan_textEvents, Option.some_bind]
        have hb := tokensScan_runGeminiBatch model fetch i
          ((model st.messages).toolCalls.getD [])
          (geminiAddTokens (model st.messages) st)
        simp only [geminiAddTokens] at hb
        rw [hb]
        simp
      · simp only [tokensScan_append, tokensScan_cons_pc, tokensScan_cons_tokens,
          geminiAddTokens]
        rw [if_pos (by simp)]
        simp only [tokensScan_textEvents, Option.some_bind]
        have hb := tokensScan_runGeminiBatch model fetch i
          ((model st.messages).toolCalls.getD [])
          (geminiAddTokens (model st.messages) st)
        simp only [geminiAddTokens] at hb
        rw [hb]
        simp only [Option.some_bind]
        have htok := geminiNextState_tokens fetch i (model st.messages)
          (geminiAddTokens (model st.messages) st)
        have hih := ih (i + 1)
          (geminiNextState fetch i (model st.messages) (geminiAddTokens (model st.messages) st))
        rw [htok.1, htok.2.1, htok.2.2] at hih
        simpa only [geminiAddTokens] using hih

/-- Counterexample to C6 as stated: a vendor turn reporting more thought
tokens than candidate tokens makes `callGemini` report a negative per-call
output value, and the running output total DECREASES from 10 to 5 between
the two iterations of this concrete run. -/
theorem C6_counterexample :
    tokensEvents (runGeminiAux demoNegTokenModel demoFetch 50 0 (initialGeminiState [])) =
      [(3, 10, 0), (3, 10, 0), (6, 5, 10)] ∧
    ¬ List.Chain' tokLE
      (tokensEvents (runGeminiAux demoNegTokenModel demoFetch 50 0 (initialGeminiState []))) := by
  have h : tokensEvents (runGeminiAux demoNegTokenModel demoFetch 50 0 (initialGeminiState [])) =
      [(3, 10, 0), (3, 10, 0), (6, 5, 10)] := by rfl
  refine ⟨h, ?_⟩
  rw [h]
  intro hch
  have h2 := (List.chain'_cons'.mp hch).2
  have h3 := (List.chain'_cons.mp h2).1
  obtain ⟨-, hout, -⟩ := h3
  exact absurd hout (by decide)

/-- C6 (amended): the Gemini adapter reports per-call output tokens as the
candidate count minus the thought count; every token event of every run
reports exactly the sum of the adapter-reported per-call values of the
provider invocations made so far — the `tokensScan` checker, which tracks
that exact sum and rejects any token event deviating from it in any
component, accepts every run unconditionally — and PROVIDED every
adapter-reported per-call value is non-negative (for Gemini: the vendor
never reports thought tokens exceeding candidate tokens), the running
input/output/thinking totals are non-decreasing along the event stream. -/
theorem C6_token_accounting :
    (∀ (usage : UsageMetadata) (parts : List Part),
      (callGemini usage parts).inputTokens = (usage.promptTokenCount.getD 0 : Int) ∧
        (callGemini usage parts).outputTokens =
          (usage.candidatesTokenCount.getD 0 : Int) - (usage.thoughtsTokenCount.getD 0 : Int) ∧
        (callGemini usage parts).thinkingTokens = (usage.thoughtsTokenCount.getD 0 : Int)) ∧
    (∀ (model : List GeminiMessage → GeminiResponse)
      (fetch : Nat → ToolCall → FetchOutcome)
      (msgs : List GeminiMessage) (n : Nat),
        (∀ h, 0 ≤ (model h).inputTokens ∧ 0 ≤ (model h).outputTokens ∧
          0 ≤ (model h).thinkingTokens) →
        List.Chain' tokLE (tokensEvents (runGeminiLoopStreaming model fetch msgs n))) ∧
    (∀ (model : List GeminiMessage → GeminiResponse)
      (fetch : Nat → ToolCall → FetchOutcome)
      (msgs : List GeminiMessage) (n : Nat),
        (tokensScan model (runGeminiLoopStreaming model fetch msgs n)
          (0, 0, 0)).isSome = true) := by
  refine ⟨callGemini_tokens, ?_, ?_⟩
  · intro model fetch msgs n hpos
    have h := runGeminiAux_tokens_chain model fetch hpos n 0 (initialGeminiState msgs)
    exact (List.chain'_cons'.mp h).2
  · intro model fetch msgs n
    exact tokensScan_runGeminiAux model fetch n 0 (initialGeminiState msgs)

/-- Witness for C6 (amended): a concrete single-iteration run whose adapter
values are non-negative has a non-decreasing token-event chain, and the
exact running-sum checker accepts it from zero totals. -/
theorem C6_witness :
    (∀ h, 0 ≤ (demoModelTextOnly h).inputTokens ∧ 0 ≤ (demoModelTextOnly h).outputTokens ∧
      0 ≤ (demoModelTextOnly h).thinkingTokens) ∧
    List.Chain' tokLE (tokensEvents (runGeminiLoopStreaming demoModelTextOnly demoFetch [] 1)) ∧
    (tokensScan demoModelTextOnly
      (runGeminiLoopStreaming demoModelTextOnly demoFetch [] 1) (0, 0, 0)).isSome = true :=
  ⟨fun _ => by norm_num [demoModelTextOnly],
    C6_token_accounting.2.1 demoModelTextOnly demoFetch [] 1
      (fun _ => by norm_num [demoModelTextOnly]),
    C6_token_accounting.2.2 demoModelTextOnly demoFetch [] 1⟩

/-!
## C8: preservation of reasoning parts (Gemini 3 recirculation)
-/

theorem callGeminiStep_modelParts (resp : GeminiResponse) (part : Part) :
    (callGeminiStep resp part).modelParts = resp.modelParts ++ [part] := by
  obtain ⟨t, th, fc, fr⟩ := part
  cases t <;> cases fc <;>
    simp only [callGeminiStep] <;>
    (try split) <;>
    rfl

theorem foldl_callGeminiStep_modelParts (parts : List Part) :
    ∀ resp : GeminiResponse,
      (parts.foldl callGeminiStep resp).modelParts = resp.modelParts ++ parts := by
  induction parts with
  | nil => intro resp; simp
  | cons p rest ih =>
    intro resp
    simp only [List.foldl_cons, ih, callGeminiStep_modelParts, List.append_assoc,
      List.singleton_append]

/-- Every candidate part — reasoning parts included — is preserved verbatim,
in order, in the adapter's `modelParts`. -/
theorem callGemini_modelParts (usage : UsageMetadata) (parts : List Part) :
    (callGemini usage parts).modelParts = parts := by
  simp [callGemini, foldl_callGeminiStep_modelParts]

/-- A thought-flagged part contributes nothing to the user-visible text. -/
theorem callGeminiStep_text_thought (resp : GeminiResponse) (part : Part)
    (h : part.thought = true) :
    (callGeminiStep resp part).text = resp.text := by
  obtain ⟨t, th, fc, fr⟩ := part
  cases th with
  | false => cases h
  | true =>
    cases t <;> cases fc <;> simp [callGeminiStep]

/-- The text update of one part depends only on the accumulated text. -/
theorem callGeminiStep_text_congr (resp resp' : GeminiResponse) (part : Part)
    (h : resp.text = resp'.text) :
    (callGeminiStep resp part).text = (callGeminiStep resp' part).text := by
  obtain ⟨t, th, fc, fr⟩ := part
  cases t <;> cases fc <;>
    simp only [callGeminiStep] <;>
    (try split) <;>
    simp [h]

theorem foldl_callGeminiStep_text_filter (parts : List Part) :
    ∀ resp resp' : GeminiResponse, resp.text = resp'.text →
      (parts.foldl callGeminiStep resp).text =
        ((parts.filter fun p => !p.thought).foldl callGeminiStep resp').text := by
  induction parts with
  | nil => intro resp resp' h; simpa using h
  | cons p rest ih =>
    intro resp resp' h
    by_cases hth : p.thought = true
    · have hfilter : (p :: rest).filter (fun p => !p.thought) =
        rest.filter fun p => !p.thought := by
        simp [List.filter_cons, hth]
      rw [hfilter, List.foldl_cons]
      exact ih (callGeminiStep resp p) resp'
        ((callGeminiStep_text_thought resp p hth).trans h)
    · have hth' : p.thought = false := Bool.not_eq_true _ |>.mp hth
      have hfilter : (p :: rest).filter (fun p => !p.thought) =
          p :: rest.filter fun p => !p.thought := by
        simp [List.filter_cons, hth']
      rw [hfilter, List.foldl_cons, List.foldl_cons]
      exact ih (callGeminiStep resp p) (callGeminiStep resp' p)
        (callGeminiStep_text_congr resp resp' p h)

/-- The adapter's `text` field is computed from the non-thought parts only:
removing the thought-flagged parts leaves it unchanged. -/
theorem callGemini_text_filter (usage : UsageMetadata) (parts : List Part) :
    (callGemini usage parts).text =
      (callGemini usage (parts.filter fun p => !p.thought)).text :=
  foldl_callGeminiStep_text_filter parts _ _ rfl

theorem geminiAddTokens_messages (resp : GeminiResponse) (st : GeminiLoopState) :
    (geminiAddTokens resp st).messages = st.messages :=
  rfl

theorem geminiNextState_messages (fetch : Nat → ToolCall → FetchOutcome) (i : Nat)
    (resp : GeminiResponse) (st1 : GeminiLoopState)
    (h : resp.modelParts.isEmpty = false) :
    (geminiNextState fetch i resp st1).messages =
      (st1.messages ++ [createModelMessageFromParts resp.modelParts]) ++
        [⟨.user, (runGeminiBatch fetch i st1 (resp.toolCalls.getD [])).2.2⟩] := by
  simp [geminiNextState, runGeminiBatch_messages, h]

/-- The first provider invocation of a run with remaining fuel is passed the
entry state's history. -/
theorem runGeminiAux_histories_head (model : List GeminiMessage → GeminiResponse)
    (fetch : Nat → ToolCall → FetchOutcome) (f i : Nat) (st : GeminiLoopState) :
    (providerHistories (runGeminiAux model fetch (f + 1) i st)).head? =
      some st.messages := by
  simp only [runGeminiAux]
  split
  · simp
  · split <;> simp [runGeminiBatch_providerHistories]

/-- C8: the Gemini adapter preserves every candidate part (reasoning parts
included) verbatim in `modelParts`; thought-flagged parts are excluded from
the user-visible `text`; a turn with tool calls always has a non-empty
preserved part list; and the agent loop appends exactly
`createModelMessageFromParts resp.modelParts` (the complete preserved list)
plus the synthesized function responses to the provider-native history sent
to the next provider invocation. -/
theorem C8_reasoning_parts_preserved :
    (∀ (usage : UsageMetadata) (parts : List Part),
      (callGemini usage parts).modelParts = parts) ∧
    (∀ (usage : UsageMetadata) (parts : List Part),
      (callGemini usage parts).text =
        (callGemini usage (parts.filter fun p => !p.thought)).text) ∧
    (∀ (usage : UsageMetadata) (parts : List Part),
      (∀ p ∈ parts, p.thought = true) → (callGemini usage parts).text = none) ∧
    (∀ (usage : UsageMetadata) (parts : List Part),
      (callGemini usage parts).toolCalls ≠ none →
      (callGemini usage parts).modelParts ≠ []) ∧
    (∀ (model : List GeminiMessage → GeminiResponse)
      (fetch : Nat → ToolCall → FetchOutcome) (f i : Nat) (st : GeminiLoopState),
        st.completed = false →
        ((model st.messages).toolCalls.getD []).isEmpty = false →
        ((model st.messages).toolCalls.getD []).any
          (fun tc => tc.name == "supervisor_complete_task") = false →
        (model st.messages).modelParts.isEmpty = false →
        (providerHistories (runGeminiAux model fetch (f + 2) i st))[1]? =
          some ((st.messages ++
              [createModelMessageFromParts (model st.messages).modelParts]) ++
            [⟨.user, (runGeminiBatch fetch i (geminiAddTokens (model st.messages) st)
              ((model st.messages).toolCalls.getD [])).2.2⟩])) := by
  refine ⟨callGemini_modelParts, callGemini_text_filter, ?_, ?_, ?_⟩
  · intro usage parts hall
    have hfilter : parts.filter (fun p => !p.thought) = [] := by
      rw [List.filter_eq_nil_iff]
      intro p hp
      simp [hall p hp]
    rw [callGemini_text_filter, hfilter]
    rfl
  · intro usage parts htc
    cases parts with
    | nil => exact absurd rfl htc
    | cons p ps =>
      rw [callGemini_modelParts]
      simp
  · intro model fetch f i st hc hE hNC hMP
    have hcomp : (geminiNextState fetch i (model st.messages)
        (geminiAddTokens (model st.messages) st)).completed = false := by
      rw [geminiNextState_completed, geminiAddTokens_completed, hc, hNC]
      rfl
    rw [show f + 2 = f + 1 + 1 from rfl, runGeminiAux]
    simp only [hE, Bool.false_eq_true, if_false]
    rw [if_neg (by rw [hcomp]; simp)]
    simp only [providerHistories_append, providerHistories_cons_pc,
      providerHistories_cons_sse, providerHistories_textEvents,
      runGeminiBatch_providerHistories, List.nil_append, List.append_nil,
      List.cons_append]
    rw [List.getElem?_cons_succ, ← List.head?_eq_getElem?,
      runGeminiAux_histories_head,
      geminiNextState_messages fetch i (model st.messages)
        (geminiAddTokens (model st.messages) st) hMP,
      geminiAddTokens_messages]

/-- Witness for C8: a candidate with a thought part followed by a
function-call part keeps both parts verbatim in `modelParts`, exposes no
thought text, and the loop's second provider invocation receives the history
extended with exactly that part list. -/
theorem C8_witness :
    (callGemini ⟨some 1, some 2, some 1⟩
        [demoThoughtPart, createFunctionCallPart "venmo_get_balance" []]).modelParts =
      [demoThoughtPart, createFunctionCallPart "venmo_get_balance" []] ∧
    (demoModelThinking []).text = none ∧
    (providerHistories (runGeminiAux demoModelThinking demoFetch 2 0
        (initialGeminiState [])))[1]? =
      some (([] ++
          [createModelMessageFromParts (demoModelThinking []).modelParts]) ++
        [⟨.user, (runGeminiBatch demoFetch 0
            (geminiAddTokens (demoModelThinking []) (initialGeminiState []))
            ((demoModelThinking []).toolCalls.getD [])).2.2⟩]) :=
  ⟨C8_reasoning_parts_preserved.1 ⟨some 1, some 2, some 1⟩
      [demoThoughtPart, createFunctionCallPart "venmo_get_balance" []],
    rfl,
    C8_reasoning_parts_preserved.2.2.2.2 demoModelThinking demoFetch 0 0
      (initialGeminiState []) rfl rfl rfl rfl⟩

/-!
## C9: provider validation
-/

/-- Counterexample to C9 as stated: a request whose model-provider value is
the unknown `"mistral"` is NOT rejected before the loop: `validateProvider`
silently falls back to `gemini` and the request proceeds to run the Gemini
loop. -/
theorem C9_counterexample :
    validateProvider (some "mistral") = ModelProvider.gemini ∧
    postPreLoop (some "mistral") (some "test-key") (some "main_task") (some "gaesa-cookie") =
      .run ModelProvider.gemini :=
  ⟨rfl, rfl⟩

/-- C9 (amended): an unknown (or absent) model-provider value is never
rejected — `validateProvider` maps it to `gemini` and the run proceeds with
the Gemini loop whenever the credential and session checks pass; the only
pre-loop rejections are a missing/empty API key and a missing/empty
`taskId`/`cookie`. -/
theorem C9_unknown_provider_defaults :
    (∀ s : String, s ≠ "gemini" → s ≠ "anthropic" → s ≠ "openai" →
      validateProvider (some s) = .gemini) ∧
    validateProvider none = .gemini ∧
    (∀ ph k t c : Option String,
      strTruthy k = true → strTruthy t = true → strTruthy c = true →
      postPreLoop ph k t c = .run (validateProvider ph)) ∧
    (∀ ph k t c : Option String, strTruthy k = false →
      postPreLoop ph k t c = .reject "Missing x-api-key header") ∧
    (∀ ph k t c : Option String, strTruthy k = true →
      strTruthy t = false ∨ strTruthy c = false →
      postPreLoop ph k t c =
        .reject "Missing taskId or cookie. Initialize the world state first.") := by
  refine ⟨?_, rfl, ?_, ?_, ?_⟩
  · intro s h1 h2 h3
    simp [validateProvider, h1, h2, h3]
  · intro ph k t c hk ht hc
    simp [postPreLoop, hk, ht, hc]
  · intro ph k t c hk
    simp [postPreLoop, hk]
  · intro ph k t c hk htc
    rcases htc with ht | hc
    · simp [postPreLoop, hk, ht]
    · simp [postPreLoop, hk, hc]

/-- Witness for C9 (amended): `"mistral"` is none of the three known
providers, and a fully-credentialed request with that header runs the
Gemini loop instead of being rejected. -/
theorem C9_witness :
    ("mistral" : String) ≠ "gemini" ∧
    validateProvider (some "mistral") = .gemini ∧
    postPreLoop (some "mistral") (some "test-key") (some "main_task") (some "gaesa-cookie") =
      .run (validateProvider (some "mistral")) :=
  ⟨by decide,
    C9_unknown_provider_defaults.1 "mistral" (by decide) (by decide) (by decide),
    C9_unknown_provider_defaults.2.2.1 (some "mistral") (some "test-key")
      (some "main_task") (some "gaesa-cookie") rfl rfl rfl⟩

/-!
## C10: the terminal flags are never both true
-/

theorem runAnthropicBatch_completed (fetch : Nat → ToolCall → FetchOutcome)
    (st : AnthropicLoopState) (tcs : List AnthropicToolCall) :
    ((runAnthropicBatch fetch st tcs).2.1).completed =
      (st.completed || tcs.any fun tc => tc.name == "supervisor_complete_task") := by
  induction tcs generalizing st with
  | nil => simp [runAnthropicBatch]
  | cons tc rest ih =>
    simp only [runAnthropicBatch, ih, List.any_cons]
    simp [Bool.or_assoc]

@[simp]
theorem anthropicNextState_completed (fetch : Nat → ToolCall → FetchOutcome)
    (resp : AnthropicResponse) (st1 : AnthropicLoopState) :
    (anthropicNextState fetch resp st1).completed =
      (st1.completed ||
        (resp.toolCalls.getD []).any fun tc => tc.name == "supervisor_complete_task") := by
  simp [anthropicNextState, runAnthropicBatch_completed, anthropicAssistantState]

theorem runOpenAIBatch_completed (fetch : Nat → ToolCall → FetchOutcome)
    (st : OpenAILoopState) (tcs : List OpenAIToolCall) :
    ((runOpenAIBatch fetch st tcs).2).completed =
      (st.completed || tcs.any fun tc => tc.name == "supervisor_complete_task") := by
  induction tcs generalizing st with
  | nil => simp [runOpenAIBatch]
  | cons tc rest ih =>
    simp only [runOpenAIBatch, ih, List.any_cons]
    simp [Bool.or_assoc]

@[simp]
theorem openAINextState_completed (fetch : Nat → ToolCall → FetchOutcome)
    (resp : OpenAIResponse) (st1 : OpenAILoopState) :
    (openAINextState fetch resp st1).completed =
      (st1.completed ||
        (resp.toolCalls.getD []).any fun tc => tc.name == "supervisor_complete_task") := by
  simp [openAINextState, runOpenAIBatch_completed, openAIAssistantState]

theorem runAnthropicBatchNS_completed (fetch : Nat → ToolCall → FetchOutcome)
    (st : AnthropicNSState) (tcs : List AnthropicToolCall) :
    ((runAnthropicBatchNS fetch st tcs).1).completed =
      (st.completed || tcs.any fun tc => tc.name == "supervisor_complete_task") := by
  induction tcs generalizing st with
  | nil => simp [runAnthropicBatchNS]
  | cons tc rest ih =>
    simp only [runAnthropicBatchNS, ih, List.any_cons]
    simp [Bool.or_assoc]

theorem anthropicTextStepNS_completed (resp : AnthropicResponse) (st : AnthropicNSState) :
    (anthropicTextStepNS resp st).completed = st.completed := by
  simp only [anthropicTextStepNS]
  split <;> rfl

@[simp]
theorem anthropicNextStateNS_completed (fetch : Nat → ToolCall → FetchOutcome)
    (resp : AnthropicResponse) (st2 : AnthropicNSState) :
    (anthropicNextStateNS fetch resp st2).completed =
      (st2.completed ||
        (resp.toolCalls.getD []).any fun tc => tc.name == "supervisor_complete_task") := by
  simp [anthropicNextStateNS, runAnthropicBatchNS_completed]

theorem runOpenAIBatchNS_completed (fetch : Nat → ToolCall → FetchOutcome)
    (st : OpenAINSState) (tcs : List OpenAIToolCall) :
    (runOpenAIBatchNS fetch st tcs).completed =
      (st.completed || tcs.any fun tc => tc.name == "supervisor_complete_task") := by
  induction tcs generalizing st with
  | nil => simp [runOpenAIBatchNS]
  | cons tc rest ih =>
    simp only [runOpenAIBatchNS, ih, List.any_cons]
    simp [Bool.or_assoc]

theorem openAITextStepNS_completed (resp : OpenAIResponse) (st : OpenAINSState) :
    (openAITextStepNS resp st).completed = st.completed := by
  simp only [openAITextStepNS]
  split <;> rfl

@[simp]
theorem openAINextStateNS_completed (fetch : Nat → ToolCall → FetchOutcome)
    (resp : OpenAIResponse) (st2 : OpenAINSState) :
    (openAINextStateNS fetch resp st2).completed =
      (st2.completed ||
        (resp.toolCalls.getD []).any fun tc => tc.name == "supervisor_complete_task") := by
  simp [openAINextStateNS, runOpenAIBatchNS_completed]

@[simp]
theorem doneOk_textEvents {μ : Type} (c : Bool) (s : String) :
    ((if c then [LoopEvent.sse (SSEEvent.textTrace s)] else ([] : List (LoopEvent μ))).all
      doneOk) = true := by
  split <;> rfl

theorem runGeminiBatch_doneOk (fetch : Nat → ToolCall → FetchOutcome)
    (i : Nat) (st : GeminiLoopState) (tcs : List GeminiToolCall) :
    ((runGeminiBatch fetch i st tcs).1).all doneOk = true := by
  induction tcs generalizing st with
  | nil => simp [runGeminiBatch]
  | cons tc rest ih => simp [runGeminiBatch, ih, doneOk]

theorem runAnthropicBatch_doneOk (fetch : Nat → ToolCall → FetchOutcome)
    (st : AnthropicLoopState) (tcs : List AnthropicToolCall) :
    ((runAnthropicBatch fetch st tcs).1).all doneOk = true := by
  induction tcs generalizing st with
  | nil => simp [runAnthropicBatch]
  | cons tc rest ih => simp [runAnthropicBatch, ih, doneOk]

theorem runOpenAIBatch_doneOk (fetch : Nat → ToolCall → FetchOutcome)
    (st : OpenAILoopState) (tcs : List OpenAIToolCall) :
    ((runOpenAIBatch fetch st tcs).1).all doneOk = true := by
  induction tcs generalizing st with
  | nil => simp [runOpenAIBatch]
  | cons tc rest ih => simp [runOpenAIBatch, ih, doneOk]

theorem runGeminiAux_doneOk (model : List GeminiMessage → GeminiResponse)
    (fetch : Nat → ToolCall → FetchOutcome) :
    ∀ (fuel i : Nat) (st : GeminiLoopState), st.completed = false →
      ((runGeminiAux model fetch fuel i st).all doneOk) = true := by
  intro fuel
  induction fuel with
  | zero => intro i st hc; simp [runGeminiAux, doneOk]
  | succ f ih =>
    intro i st hc
    simp only [runGeminiAux]
    split
    · simp [doneOk, geminiAddTokens, hc]
    · split
      · simp [doneOk, runGeminiBatch_doneOk]
      · rename_i hcond
        simp [doneOk, runGeminiBatch_doneOk,
          ih (i + 1) _ (Bool.not_eq_true _ |>.mp hcond)]

theorem runAnthropicAux_doneOk (model : List AnthropicMessage → AnthropicResponse)
    (fetch : Nat → ToolCall → FetchOutcome) :
    ∀ (fuel : Nat) (st : AnthropicLoopState), st.completed = false →
      ((runAnthropicAux model fetch fuel st).all doneOk) = true := by
  intro fuel
  induction fuel with
  | zero => intro st hc; simp [runAnthropicAux, doneOk]
  | succ f ih =>
    intro st hc
    simp only [runAnthropicAux]
    split
    · simp [doneOk, anthropicAddTokens, hc]
    · split
      · simp [doneOk, runAnthropicBatch_doneOk]
      · rename_i hcond
        simp [doneOk, runAnthropicBatch_doneOk,
          ih _ (Bool.not_eq_true _ |>.mp hcond)]

theorem runOpenAIAux_doneOk (model : List OpenAIMessage → OpenAIResponse)
    (fetch : Nat → ToolCall → FetchOutcome) :
    ∀ (fuel : Nat) (st : OpenAILoopState), st.completed = false →
      ((runOpenAIAux model fetch fuel st).all doneOk) = true := by
  intro fuel
  induction fuel with
  | zero => intro st hc; simp [runOpenAIAux, doneOk]
  | succ f ih =>
    intro st hc
    simp only [runOpenAIAux]
    split
    · simp [doneOk, openAIAddTokens, hc]
    · split
      · simp [doneOk, runOpenAIBatch_doneOk]
      · rename_i hcond
        simp [doneOk, runOpenAIBatch_doneOk,
          ih _ (Bool.not_eq_true _ |>.mp hcond)]

theorem runGeminiLoopAux_doneOk (model : List GeminiMessage → GeminiResponse)
    (fetch : Nat → ToolCall → FetchOutcome) :
    ∀ (fuel i : Nat) (st : GeminiNSState), st.completed = false →
      (!((runGeminiLoopAux model fetch fuel i st).completed &&
        (runGeminiLoopAux model fetch fuel i st).needsUserInput)) = true := by
  intro fuel
  induction fuel with
  | zero => intro i st hc; simp [runGeminiLoopAux]
  | succ f ih =>
    intro i st hc
    simp only [runGeminiLoopAux]
    split
    · rw [geminiTextStepNS_completed, geminiAddTokensNS_completed, hc]
      simp
    · split
      · simp
      · rename_i hcond
        exact ih (i + 1) _ (Bool.not_eq_true _ |>.mp hcond)

theorem runAnthropicLoopAux_doneOk (model : List AnthropicMessage → AnthropicResponse)
    (fetch : Nat → ToolCall → FetchOutcome) :
    ∀ (fuel : Nat) (st : AnthropicNSState), st.completed = false →
      (!((runAnthropicLoopAux model fetch fuel st).completed &&
        (runAnthropicLoopAux model fetch fuel st).needsUserInput)) = true := by
  intro fuel
  induction fuel with
  | zero => intro st hc; simp [runAnthropicLoopAux]
  | succ f ih =>
    intro st hc
    simp only [runAnthropicLoopAux]
    split
    · simp [anthropicTextStepNS_completed, anthropicAddTokensNS, hc]
    · split
      · simp
      · rename_i hcond
        exact ih _ (Bool.not_eq_true _ |>.mp hcond)

theorem runOpenAILoopAux_doneOk (model : List OpenAIMessage → OpenAIResponse)
    (fetch : Nat → ToolCall → FetchOutcome) :
    ∀ (fuel : Nat) (st : OpenAINSState), st.completed = false →
      (!((runOpenAILoopAux model fetch fuel st).completed &&
        (runOpenAILoopAux model fetch fuel st).needsUserInput)) = true := by
  intro fuel
  induction fuel with
  | zero => intro st hc; simp [runOpenAILoopAux]
  | succ f ih =>
    intro st hc
    simp only [runOpenAILoopAux]
    split
    · simp [openAITextStepNS_completed, openAIAddTokensNS, hc]
    · split
      · simp
      · rename_i hcond
        exact ih _ (Bool.not_eq_true _ |>.mp hcond)

/-- C10: in every terminal `Done` emitted by any of the three agent loops,
streaming or non-streaming, `completed` and `needsUserInput` are never both
true: `needsUserInput` can be true only on the no-tool-call exit, where
`completed` is still false, and every completion-tool or iteration-limit
exit reports `needsUserInput = false`. -/
theorem C10_done_flags_exclusive :
    (∀ (model : List GeminiMessage → GeminiResponse)
      (fetch : Nat → ToolCall → FetchOutcome)
      (msgs : List GeminiMessage) (n : Nat),
        ((runGeminiLoopStreaming model fetch msgs n).all doneOk) = true) ∧
    (∀ (model : List AnthropicMessage → AnthropicResponse)
      (fetch : Nat → ToolCall → FetchOutcome)
      (msgs : List AnthropicMessage) (n : Nat),
        ((runAnthropicLoopStreaming model fetch msgs n).all doneOk) = true) ∧
    (∀ (model : List OpenAIMessage → OpenAIResponse)
      (fetch : Nat → ToolCall → FetchOutcome)
      (msgs : List OpenAIMessage) (n : Nat),
        ((runOpenAILoopStreaming model fetch msgs n).all doneOk) = true) ∧
    (∀ (model : List GeminiMessage → GeminiResponse)
      (fetch : Nat → ToolCall → FetchOutcome)
      (msgs : List GeminiMessage) (n : Nat),
        (!((runGeminiLoop model fetch msgs n).completed &&
          (runGeminiLoop model fetch msgs n).needsUserInput)) = true) ∧
    (∀ (model : List AnthropicMessage → AnthropicResponse)
      (fetch : Nat → ToolCall → FetchOutcome)
      (msgs : List AnthropicMessage) (n : Nat),
        (!((runAnthropicLoop model fetch msgs n).completed &&
          (runAnthropicLoop model fetch msgs n).needsUserInput)) = true) ∧
    (∀ (model : List OpenAIMessage → OpenAIResponse)
      (fetch : Nat → ToolCall → FetchOutcome)
      (msgs : List OpenAIMessage) (n : Nat),
        (!((runOpenAILoop model fetch msgs n).completed &&
          (runOpenAILoop model fetch msgs n).needsUserInput)) = true) := by
  refine ⟨?_, ?_, ?_, ?_, ?_, ?_⟩
  · intro model fetch msgs n
    exact runGeminiAux_doneOk model fetch n 0 (initialGeminiState msgs) rfl
  · intro model fetch msgs n
    exact runAnthropicAux_doneOk model fetch n (initialAnthropicState msgs) rfl
  · intro model fetch msgs n
    exact runOpenAIAux_doneOk model fetch n (initialOpenAIState msgs) rfl
  · intro model fetch msgs n
    exact runGeminiLoopAux_doneOk model fetch n 0 (initialGeminiNSState msgs) rfl
  · intro model fetch msgs n
    exact runAnthropicLoopAux_doneOk model fetch n (initialAnthropicNSState msgs) rfl
  · intro model fetch msgs n
    exact runOpenAILoopAux_doneOk model fetch n (initialOpenAINSState msgs) rfl

end AgentPlayground
